import Mathlib

/-!
Verification development for the contact-extraction / newsletter-detection
core of the office-365-mcp-server repository.

The JavaScript utility modules (`src/utils/deduplicator.js`,
`src/utils/contact-parser.js`, `src/utils/html-processor.js`,
`src/utils/csv-generator.js`, `src/utils/newsletter-detector.js`) are shallowly
embedded below.  Conventions used throughout the embedding:

* JS strings are Lean `String`s; all string manipulation is defined on the
  underlying `List Char` so proofs can proceed by list induction.  JS string
  `length` is the character count (the sources only use BMP text).
* A JS value that may be `null`/`undefined` is an `Option`; the JS truthiness
  tests of the sources are modelled by explicit `truthy…` functions
  (`none` and the empty string are falsy, arrays are always truthy,
  `false` is falsy).
* JS `Date` comparison of `firstSeenDate` strings is modelled by `jsDateLt`:
  an executable parser (`jsDateVal`) of the ISO-8601 shapes the pipeline
  stores, monotone in (date, time); a string that does not parse behaves
  like JS `Invalid Date` (`NaN`), making every comparison false.  Distinct
  strings can parse equal (`…:00Z` vs `…:00.000Z`), so — exactly as in JS —
  the earliest-date merge step is *not* commutative on such pairs.
* `Char.toLower` / `Char.isWhitespace` stand in for the JS Unicode versions;
  the repository only feeds them ASCII field names and e-mail addresses.
-/

namespace O365

/-! ## JS string primitives -/

/-- Whitespace class used by JS `trim`, `\s` and the separator-stripping
regexes of the sources (the repository only exercises the ASCII parts). -/
def isWS (c : Char) : Bool := c.isWhitespace

/-- Underlying list form of JS `String.prototype.trim`. -/
def trimList (l : List Char) : List Char :=
  ((l.dropWhile isWS).reverse.dropWhile isWS).reverse

/-- JS `s.trim()`. -/
def jsTrim (s : String) : String := ⟨trimList s.data⟩

/-- JS `s.toLowerCase()` (ASCII case folding). -/
def jsLower (s : String) : String := ⟨s.data.map Char.toLower⟩

/-- JS `Array.prototype.join(sep)` / `String.prototype.concat` chain:
`[x1, …, xn].join(sep) = x1 ++ sep ++ … ++ sep ++ xn`, `[].join(sep) = ""`. -/
def jsJoin (sep : String) : List String → String
  | [] => ""
  | [x] => x
  | x :: y :: rest => x ++ sep ++ jsJoin sep (y :: rest)

/-- JS `String.prototype.split(c)` for a single-character separator, on the
underlying character list: every occurrence of `c` separates two pieces, so
`"".split = [""]`, `"a\nb".split('\n') = ["a","b"]`, `"a\n".split = ["a",""]`. -/
def splitChar (c : Char) : List Char → List (List Char)
  | [] => [[]]
  | d :: rest =>
    let r := splitChar c rest
    if d = c then [] :: r
    else
      match r with
      | p :: ps => (d :: p) :: ps
      | [] => [[d]]

/-- Concatenation of pieces with a single-character separator (inverse of
`splitChar` on separator-free pieces). -/
def joinChar (c : Char) : List (List Char) → List Char
  | [] => []
  | [p] => p
  | p :: q :: rest => p ++ c :: joinChar c (q :: rest)

/-- JS `s.split(c)` returning strings. -/
def jsSplitChar (c : Char) (s : String) : List String :=
  (splitChar c s.data).map (fun l => (⟨l⟩ : String))

/-- Does `pat` occur in `s` starting at character index `i`?
(The workhorse behind the embeddings of `indexOf`/`lastIndexOf`/`includes`.) -/
def matchAtB (pat s : String) (i : Nat) : Bool :=
  decide ((s.data.drop i).take pat.data.length = pat.data)

/-- JS `s.includes(pat)` (also the semantics of a regex that is a literal
alternation: some literal occurs somewhere in `s`). -/
def containsSub (s pat : String) : Bool :=
  (List.range (s.length + 1)).any (fun i => matchAtB pat s i)

/-- Number of occurrences of a literal pattern (JS `(s.match(/lit/g) || []).length`
for a literal that cannot overlap itself, as with `"<table"` / `"<img"`). -/
def countSub (s pat : String) : Nat :=
  ((List.range (s.length + 1)).filter (fun i => matchAtB pat s i)).length

/-- JS `s.lastIndexOf(pat)`: the greatest index at which `pat` occurs, `-1`
when it does not occur. -/
def jsLastIndexOf (s pat : String) : Int :=
  match ((List.range (s.length + 1)).filter (fun i => matchAtB pat s i)).max? with
  | some j => (j : Int)
  | none => -1

/-! ## JS `Date` model

`mergeContacts` compares `firstSeenDate` strings with
`new Date(d1) < new Date(d2)`.  `jsDateVal` models the JS date parser on the
ISO-8601 shapes the pipeline stores (`YYYY-MM-DD`, and `YYYY-MM-DDTHH:MM`,
`…THH:MM:SS`, `…THH:MM:SS.mmm`, each `Z`-suffixed — Graph timestamps and
`new Date().toISOString()` output): the returned value is strictly monotone
in (date, time), so it induces the same order and the same equality classes
as the JS time value, and any other string maps to `none` — JS
`Invalid Date`, whose `NaN` time value makes every comparison false.
Consequently `jsDateLt` is false in both directions for equal-parsing or
invalid pairs, reproducing the JS behaviour that the dedicated merge clause
then keeps the second argument's string in both orders. -/

/-- Numeric value of a decimal digit character. -/
def digitVal (c : Char) : Nat := c.toNat - '0'.toNat

/-- Gregorian leap-year rule (for day-of-month validation). -/
def isLeapYear (y : Nat) : Bool :=
  (y % 4 = 0 && ! (y % 100 = 0)) || y % 400 = 0

/-- Days in a month (1-based), for the ISO parser's range check. -/
def daysInMonth (y m : Nat) : Nat :=
  if m = 4 || m = 6 || m = 9 || m = 11 then 30
  else if m = 2 then (if isLeapYear y then 29 else 28)
  else 31

/-- Milliseconds field of an ISO time: `Z` (0 ms) or `.mmmZ`. -/
def jsMsPart : List Char → Option Nat
  | ['Z'] => some 0
  | ['.', a, b, c, 'Z'] =>
    if a.isDigit && b.isDigit && c.isDigit then
      some ((digitVal a * 10 + digitVal b) * 10 + digitVal c)
    else none
  | _ => none

/-- Seconds-and-milliseconds field of an ISO time (in milliseconds):
`Z`, `:SSZ` or `:SS.mmmZ`. -/
def jsSecPart : List Char → Option Nat
  | ['Z'] => some 0
  | ':' :: s1 :: s2 :: rest =>
    if s1.isDigit && s2.isDigit then
      let ss := digitVal s1 * 10 + digitVal s2
      if ss ≤ 59 then
        match jsMsPart rest with
        | some ms => some (ss * 1000 + ms)
        | none => none
      else none
    else none
  | _ => none

/-- Time-of-day field (in milliseconds): empty (date-only, UTC midnight) or
`THH:MM` followed by a seconds field. -/
def jsTimePart : List Char → Option Nat
  | [] => some 0
  | 'T' :: h1 :: h2 :: ':' :: n1 :: n2 :: rest =>
    if h1.isDigit && h2.isDigit && n1.isDigit && n2.isDigit then
      let hh := digitVal h1 * 10 + digitVal h2
      let mm := digitVal n1 * 10 + digitVal n2
      if hh ≤ 23 && mm ≤ 59 then
        match jsSecPart rest with
        | some t => some ((hh * 60 + mm) * 60000 + t)
        | none => none
      else none
    else none
  | _ => none

/-- `new Date(s)` time value on the pipeline's ISO-8601 strings: `none` for
anything that does not parse (JS `Invalid Date` / `NaN`). -/
def jsDateVal (s : String) : Option Nat :=
  match s.data with
  | y1 :: y2 :: y3 :: y4 :: '-' :: m1 :: m2 :: '-' :: d1 :: d2 :: rest =>
    if y1.isDigit && y2.isDigit && y3.isDigit && y4.isDigit &&
        m1.isDigit && m2.isDigit && d1.isDigit && d2.isDigit then
      let y := ((digitVal y1 * 10 + digitVal y2) * 10 + digitVal y3) * 10 +
        digitVal y4
      let m := digitVal m1 * 10 + digitVal m2
      let d := digitVal d1 * 10 + digitVal d2
      if 1 ≤ m && m ≤ 12 && 1 ≤ d && d ≤ daysInMonth y m then
        match jsTimePart rest with
        | some t => some ((y * 372 + (m - 1) * 31 + (d - 1)) * 86400000 + t)
        | none => none
      else none
    else none
  | _ => none

/-- `new Date(d1) < new Date(d2)`: numeric comparison of time values, false
whenever either side is `NaN` (invalid). -/
def jsDateLt (d1 d2 : String) : Bool :=
  match jsDateVal d1, jsDateVal d2 with
  | some t1, some t2 => decide (t1 < t2)
  | _, _ => false

/-! ## `src/utils/deduplicator.js` -/

/-- A raw/merged contact record.  Every field that JS code may leave
`undefined`/`null` is an `Option`; `email` is modelled as a plain string with
`""` playing the role of a missing (falsy) email. -/
structure Contact where
  email : String
  displayName : Option String
  firstName : Option String
  lastName : Option String
  phoneNumbers : Option (List String)
  linkedInUrls : Option (List String)
  companyName : Option String
  jobTitle : Option String
  source : Option String
  isInOutlook : Option Bool
  firstSeenDate : Option String
  extractionConfidence : Option String
deriving Repr, DecidableEq

/-- A contact with every optional field absent (building block for tests). -/
def emptyContact : Contact :=
  ⟨"", none, none, none, none, none, none, none, none, none, none, none⟩

/-- JS truthiness of a possibly-missing string field. -/
def truthyS : Option String → Bool
  | some s => decide (s ≠ "")
  | none => false

/-- JS truthiness of a possibly-missing boolean field. -/
def truthyB : Option Bool → Bool
  | some b => b
  | none => false

/-- JS truthiness of a possibly-missing array field (arrays are truthy even
when empty). -/
def truthyL : Option (List String) → Bool
  | some _ => true
  | none => false

/-- `sourcePreference[source] || 0` with
`sourcePreference = { metadata: 3, signature: 2, body: 1 }`. -/
def sourcePriority : Option String → Nat
  | some "metadata" => 3
  | some "signature" => 2
  | some "body" => 1
  | _ => 0

/-- `confidenceLevels[c] || 0` with `confidenceLevels = { high: 3, medium: 2, low: 1 }`. -/
def confLevel : Option String → Nat
  | some "high" => 3
  | some "medium" => 2
  | some "low" => 1
  | _ => 0

/-- One iteration of the generic per-key merge loop of `mergeContacts` for a
string-valued field: adopt `val2` when it is truthy and `val1` is not, or when
both are truthy and `contact2`'s source has strictly higher priority. -/
def mergeField (p1 p2 : Nat) (v1 v2 : Option String) : Option String :=
  if truthyS v2 && ! truthyS v1 then v2
  else if truthyS v1 && truthyS v2 && decide (p1 < p2) then v2
  else v1

/-- The generic merge loop applied to the boolean `isInOutlook` key. -/
def mergeFieldB (p1 p2 : Nat) (v1 v2 : Option Bool) : Option Bool :=
  if truthyB v2 && ! truthyB v1 then v2
  else if truthyB v1 && truthyB v2 && decide (p1 < p2) then v2
  else v1

/-- The generic merge loop applied to an array-valued key (before the
dedicated array-union step runs). -/
def mergeFieldL (p1 p2 : Nat) (v1 v2 : Option (List String)) : Option (List String) :=
  if truthyL v2 && ! truthyL v1 then v2
  else if truthyL v1 && truthyL v2 && decide (p1 < p2) then v2
  else v1

/-- JS `Set.prototype.add`: append unless already present (first-insertion
order is preserved). -/
def jsSetAdd (l : List String) (x : String) : List String :=
  if x ∈ l then l else l ++ [x]

/-- JS `[...new Set([...a, ...b])]`. -/
def jsSetUnion (a b : List String) : List String :=
  (a ++ b).foldl jsSetAdd []

/-- `mergeContacts(contact1, contact2)` from `src/utils/deduplicator.js`:
start from a copy of `contact1`, run the generic per-key loop over
`contact2`'s fields (`email` excluded), then the dedicated steps for array
union, confidence level and earliest `firstSeenDate` (the source's
`new Date(date1) < new Date(date2) ? d1 : d2`, embedded via `jsDateLt`;
when the comparison is false — later, equal-parsing, or invalid dates —
`contact2`'s string is kept, in both orders). -/
def mergeContacts (c1 c2 : Contact) : Contact :=
  let p1 := sourcePriority c1.source
  let p2 := sourcePriority c2.source
  let ec0 := mergeField p1 p2 c1.extractionConfidence c2.extractionConfidence
  let fsd0 := mergeField p1 p2 c1.firstSeenDate c2.firstSeenDate
  { email := c1.email
    displayName := mergeField p1 p2 c1.displayName c2.displayName
    firstName := mergeField p1 p2 c1.firstName c2.firstName
    lastName := mergeField p1 p2 c1.lastName c2.lastName
    phoneNumbers :=
      match c1.phoneNumbers, c2.phoneNumbers with
      | some a, some b => some (jsSetUnion a b)
      | _, _ => mergeFieldL p1 p2 c1.phoneNumbers c2.phoneNumbers
    linkedInUrls :=
      match c1.linkedInUrls, c2.linkedInUrls with
      | some a, some b => some (jsSetUnion a b)
      | _, _ => mergeFieldL p1 p2 c1.linkedInUrls c2.linkedInUrls
    companyName := mergeField p1 p2 c1.companyName c2.companyName
    jobTitle := mergeField p1 p2 c1.jobTitle c2.jobTitle
    source := mergeField p1 p2 c1.source c2.source
    isInOutlook := mergeFieldB p1 p2 c1.isInOutlook c2.isInOutlook
    firstSeenDate :=
      if truthyS c1.firstSeenDate && truthyS c2.firstSeenDate then
        match c1.firstSeenDate, c2.firstSeenDate with
        | some d1, some d2 => if jsDateLt d1 d2 then some d1 else some d2
        | _, _ => fsd0
      else fsd0
    extractionConfidence :=
      if truthyS c2.extractionConfidence && truthyS c1.extractionConfidence
          && decide (confLevel c1.extractionConfidence < confLevel c2.extractionConfidence)
      then c2.extractionConfidence
      else ec0 }

/-- `contact.email.toLowerCase().trim()`: the canonical deduplication key. -/
def canonEmail (s : String) : String := jsTrim (jsLower s)

/-- Result record of `deduplicateContacts`. -/
structure DedupResult where
  deduplicated : List Contact
  duplicatesRemoved : Nat
deriving Repr, DecidableEq

/-- One iteration of the `contacts.forEach` loop of `deduplicateContacts`:
skip contacts with a falsy email, merge into an existing map entry keyed by
the canonical email, or append a fresh entry (JS `Map` preserves insertion
order and `set` on an existing key keeps its position). -/
def dedupStep (m : List (String × Contact)) (c : Contact) : List (String × Contact) :=
  if c.email = "" then m
  else
    let key := canonEmail c.email
    if m.any (fun kv => kv.1 = key) then
      m.map (fun kv => if kv.1 = key then (kv.1, mergeContacts kv.2 c) else kv)
    else m ++ [(key, c)]

/-- `deduplicateContacts(contacts)` from `src/utils/deduplicator.js`. -/
def deduplicateContacts (contacts : List Contact) : DedupResult :=
  if contacts.isEmpty then ⟨[], 0⟩
  else
    let m := contacts.foldl dedupStep []
    ⟨m.map (fun kv => kv.2), contacts.length - m.length⟩

/-! ## `src/utils/contact-parser.js` — `parseDisplayName` -/

/-- JS `String.prototype.split(/\s+/)` on the underlying character list:
split on maximal whitespace runs; a leading (resp. trailing) run contributes a
leading (resp. trailing) empty piece, and `"".split(/\s+/) = [""]`. -/
def splitWS : List Char → List (List Char)
  | [] => [[]]
  | c :: rest =>
    let r := splitWS rest
    if isWS c then
      match rest with
      | [] => [[], []]
      | d :: _ => if isWS d then r else [] :: r
    else
      match r with
      | p :: ps => (c :: p) :: ps
      | [] => [[c]]

/-- Result of `parseDisplayName`. -/
structure NameParts where
  firstName : Option String
  lastName : Option String
deriving Repr, DecidableEq

/-- `parseDisplayName(displayName)` from `src/utils/contact-parser.js`:
falsy input short-circuits, otherwise trim, split on whitespace runs and
dispatch on the number of parts (`"".split(/\s+/)` is `[""]`, so the
`length === 0` branch of the source is dead code, kept here verbatim). -/
def parseDisplayName (displayName : Option String) : NameParts :=
  match displayName with
  | none => ⟨none, none⟩
  | some s =>
    if s = "" then ⟨none, none⟩
    else
      let parts := (splitWS (jsTrim s).data).map (fun l => (⟨l⟩ : String))
      match parts with
      | [] => ⟨none, none⟩
      | [t] => ⟨some t, none⟩
      | t :: rest => ⟨some t, some (jsJoin " " rest)⟩

/-- Modelled from the spec (§4.4, amended): the display-name contract with the
whitespace-only case made explicit — absent or empty input gives two nulls; a
non-empty input whose trim is empty gives `firstName = ""` (the JS
`"".split(/\s+/) = [""]` artefact); otherwise the whitespace tokens decide:
one token gives `{token, null}`, two or more give
`{first token, remaining tokens joined by a single space}`. -/
def specParseDisplayName (displayName : Option String) : NameParts :=
  match displayName with
  | none => ⟨none, none⟩
  | some s =>
    if s = "" then ⟨none, none⟩
    else if jsTrim s = "" then ⟨some "", none⟩
    else
      match (splitWS (jsTrim s).data).filter (fun p => ! p.isEmpty) with
      | [] => ⟨none, none⟩
      | [t] => ⟨some (⟨t⟩ : String), none⟩
      | t :: rest => ⟨some (⟨t⟩ : String),
          some (jsJoin " " (rest.map (fun l => (⟨l⟩ : String))))⟩

/-! ## `src/utils/csv-generator.js` -/

/-- Replace every `"` by `""` (JS `stringValue.replace(/"/g, '""')`). -/
def dqList : List Char → List Char
  | [] => []
  | c :: rest => if c = '"' then '"' :: '"' :: dqList rest else c :: dqList rest

/-- `escapeCSVField(value)` for a string-or-missing value: `null`/`undefined`
render as `""`; a value containing a comma, double quote or newline is wrapped
in double quotes with inner quotes doubled. -/
def escapeCSVField (v : Option String) : String :=
  match v with
  | none => ""
  | some s =>
    if s.data.contains ',' || s.data.contains '"' || s.data.contains '\n'
    then "\"" ++ (⟨dqList s.data⟩ : String) ++ "\""
    else s

/-- `escapeCSVField` applied to the boolean `isInOutlook` field
(JS `String(true) = "true"`, `String(false) = "false"`). -/
def escapeBoolField (v : Option Bool) : String :=
  escapeCSVField (v.map (fun b => if b then "true" else "false"))

/-- `arrayToCSVString(arr, ';')`: non-arrays and empty arrays render as `""`,
otherwise the elements joined by the separator. -/
def arrayToCSVString (arr : Option (List String)) (sep : String) : String :=
  match arr with
  | none => ""
  | some l => if l.isEmpty then "" else jsJoin sep l

/-- The fixed header column list of `generateCSV`. -/
def csvHeaders : List String :=
  ["email", "displayName", "firstName", "lastName", "phoneNumbers",
   "linkedInUrls", "companyName", "jobTitle", "source", "isInOutlook",
   "firstSeenDate", "extractionConfidence"]

/-- `headers.join(',')`. -/
def csvHeaderLine : String := jsJoin "," csvHeaders

/-- One data row of `generateCSV`: the twelve escaped fields joined by commas. -/
def csvRow (c : Contact) : String :=
  jsJoin ","
    [escapeCSVField (some c.email),
     escapeCSVField c.displayName,
     escapeCSVField c.firstName,
     escapeCSVField c.lastName,
     escapeCSVField (some (arrayToCSVString c.phoneNumbers ";")),
     escapeCSVField (some (arrayToCSVString c.linkedInUrls ";")),
     escapeCSVField c.companyName,
     escapeCSVField c.jobTitle,
     escapeCSVField c.source,
     escapeBoolField c.isInOutlook,
     escapeCSVField c.firstSeenDate,
     escapeCSVField c.extractionConfidence]

/-- `generateCSV(contacts)` from `src/utils/csv-generator.js`: empty input
yields the empty string, otherwise the header row followed by one row per
contact, joined by newlines. -/
def generateCSV (contacts : List Contact) : String :=
  if contacts.isEmpty then ""
  else jsJoin "\n" (csvHeaderLine :: contacts.map csvRow)

/-- The lines of a string in the JS `s.split('\n')` sense. -/
def csvLines (s : String) : List String := jsSplitChar '\n' s

/-- Number of lines of the generated CSV text. -/
def lineCount (s : String) : Nat := (csvLines s).length

/-- First line of the generated CSV text. -/
def firstLine (s : String) : String := (csvLines s).headD ""

/-- Decidable check that every rendered field of a contact is newline-free
(hypothesis of the amended CSV line-structure claim). -/
def noNL (s : String) : Bool := ! s.data.contains '\n'

/-- `noNL` lifted to optional fields. -/
def noNLo (v : Option String) : Bool :=
  match v with
  | none => true
  | some s => noNL s

/-- `noNL` lifted to list fields. -/
def noNLl (v : Option (List String)) : Bool :=
  match v with
  | none => true
  | some l => l.all noNL

/-- All twelve fields of a contact are newline-free. -/
def contactNoNewline (c : Contact) : Bool :=
  noNL c.email && noNLo c.displayName && noNLo c.firstName && noNLo c.lastName &&
  noNLl c.phoneNumbers && noNLl c.linkedInUrls && noNLo c.companyName &&
  noNLo c.jobTitle && noNLo c.source && noNLo c.firstSeenDate &&
  noNLo c.extractionConfidence

/-! ## `src/utils/html-processor.js` — `extractSignature` -/

/-- The fixed ordered marker list of `extractSignature` (English, French and
generic delimiters), verbatim from the source. -/
def signatureMarkers : List String :=
  ["Best regards", "Regards", "Sincerely", "Thanks", "Cheers", "Best",
   "Thank you",
   "Cordialement", "Bien cordialement", "Salutations",
   "Salutations distinguées", "Respectueusement", "Amitiés", "Amicalement",
   "Bonne journée", "Bonne soirée",
   "--", "___", "Sent from", "Envoyé depuis"]

/-- The `signatureMarkers.forEach` scan of `extractSignature`: fold the
markers, keeping the largest `lastIndexOf` seen so far (`-1` when no marker
occurs). -/
def lastMarkerIndex (bodyText : String) : Int :=
  signatureMarkers.foldl
    (fun acc m =>
      let index := jsLastIndexOf bodyText m
      if acc < index then index else acc)
    (-1)

/-- `extractSignature(bodyText)` from `src/utils/html-processor.js`. -/
def extractSignature (bodyText : String) : Option String :=
  if bodyText = "" then none
  else
    let idx := lastMarkerIndex bodyText
    if idx = -1 then
      let lines := splitChar '\n' bodyText.data
      if 3 < lines.length then
        some ⟨joinChar '\n' (lines.drop (lines.length - 4))⟩
      else none
    else
      let signature : String := ⟨bodyText.data.drop idx.toNat⟩
      if 500 < signature.length then some ⟨signature.data.take 500⟩
      else some signature

/-- Modelled from the spec (§4.5): every position at which some marker phrase
occurs in the body text. -/
def allMarkerPositions (bodyText : String) : List Nat :=
  (List.range (bodyText.length + 1)).filter
    (fun i => signatureMarkers.any (fun m => matchAtB m bodyText i))

/-- Modelled from the spec (§4.5): if any marker phrase occurs, return the
substring from the greatest occurrence position to the end of the text,
truncated to 500 characters; if none occurs and the body has more than 3
lines, return the last 4 lines joined; otherwise return null. -/
def extractSignatureSpec (bodyText : String) : Option String :=
  match (allMarkerPositions bodyText).max? with
  | some i =>
    let signature : String := ⟨bodyText.data.drop i⟩
    some (if 500 < signature.length then ⟨signature.data.take 500⟩ else signature)
  | none =>
    let lines := splitChar '\n' bodyText.data
    if 3 < lines.length then
      some ⟨joinChar '\n' (lines.drop (lines.length - 4))⟩
    else none

/-! ## `src/utils/contact-parser.js` — `extractPhoneNumbers`

The three phone regexes are compiled to a tiny element language with
greedy-with-backtracking matching, exactly the semantics JS applies to them:

* `/\(?\d{3}\)?[\s.-]?\d{3}[\s.-]?\d{4}/g`
* `/\+\d{1,3}[\s.-]?\(?\d{1,4}\)?[\s.-]?\d{1,4}[\s.-]?\d{1,9}/g`
* `/\b\d{10}\b/g`

Scanning is JS `String.prototype.match` with the `g` flag: attempt a match at
each position left to right, and on success continue after the match. -/

/-- One element of the phone regexes: a literal character, a greedy digit
repetition `\d{lo,hi}`, an optional literal `x?`, or an optional separator
`[\s.-]?`. -/
inductive RElem where
  | lit : Char → RElem
  | digits : Nat → Nat → RElem
  | optChar : Char → RElem
  | optSep : RElem
deriving Repr, DecidableEq

/-- Separator class `[\s.-]`. -/
def isSepClass (c : Char) : Bool := isWS c || c = '.' || c = '-'

/-- Greedy backtracking matcher for a sequence of `RElem`s against a prefix of
`s`; returns the consumed prefix and the remainder.  `fuel` only bounds the
recursion (any `fuel ≥ ps.length + s.length + 1` gives the untruncated
semantics). -/
def reMatch : Nat → List RElem → List Char → Option (List Char × List Char)
  | 0, _, _ => none
  | _ + 1, [], s => some ([], s)
  | _ + 1, .lit _ :: _, [] => none
  | fuel + 1, .lit c :: ps, d :: s =>
    if d = c then
      match reMatch fuel ps s with
      | some (m, r) => some (c :: m, r)
      | none => none
    else none
  | fuel + 1, .optChar c :: ps, s =>
    (match s with
     | d :: s' =>
       if d = c then
         match reMatch fuel ps s' with
         | some (m, r) => some (c :: m, r)
         | none => reMatch fuel ps s
       else reMatch fuel ps s
     | [] => reMatch fuel ps s)
  | fuel + 1, .optSep :: ps, s =>
    (match s with
     | d :: s' =>
       if isSepClass d then
         match reMatch fuel ps s' with
         | some (m, r) => some (d :: m, r)
         | none => reMatch fuel ps s
       else reMatch fuel ps s
     | [] => reMatch fuel ps s)
  | fuel + 1, .digits lo hi :: ps, s =>
    (match hi, s with
     | hi' + 1, d :: s' =>
       if d.isDigit then
         match reMatch fuel (.digits (lo - 1) hi' :: ps) s' with
         | some (m, r) => some (d :: m, r)
         | none => if lo = 0 then reMatch fuel ps s else none
       else if lo = 0 then reMatch fuel ps s else none
     | _, _ => if lo = 0 then reMatch fuel ps s else none)

/-- JS `\w` word characters (for the `\b` boundaries of `/\b\d{10}\b/`). -/
def isWordChar (c : Char) : Bool :=
  c.isAlpha || c.isDigit || c = '_'

/-- Global scan (`'g'` flag): try the pattern at each position from left to
right, carrying the previous character for `\b` checks; on a match, emit it
and resume after it.  `boundary = true` adds the `\b…\b` requirement of the
third pattern. -/
def reScan : Nat → List RElem → Bool → Option Char → List Char → List (List Char)
  | 0, _, _, _, _ => []
  | _ + 1, _, _, _, [] => []
  | fuel + 1, ps, boundary, prev, c :: rest =>
    let okBefore := ! boundary ||
      (match prev with
       | some p => ! isWordChar p
       | none => true)
    let attempt :=
      if okBefore then reMatch (ps.length + (c :: rest).length + 1) ps (c :: rest)
      else none
    match attempt with
    | some (m, r) =>
      let okAfter := ! boundary ||
        (match r with
         | c' :: _ => ! isWordChar c'
         | [] => true)
      if okAfter then
        m :: reScan fuel ps boundary (m.getLastD c) r
      else
        reScan fuel ps boundary (some c) rest
    | none => reScan fuel ps boundary (some c) rest

/-- Pattern 1: `\(?\d{3}\)?[\s.-]?\d{3}[\s.-]?\d{4}` (US formats). -/
def phonePattern1 : List RElem :=
  [.optChar '(', .digits 3 3, .optChar ')', .optSep, .digits 3 3, .optSep,
   .digits 4 4]

/-- Pattern 2: `\+\d{1,3}[\s.-]?\(?\d{1,4}\)?[\s.-]?\d{1,4}[\s.-]?\d{1,9}`
(international formats). -/
def phonePattern2 : List RElem :=
  [.lit '+', .digits 1 3, .optSep, .optChar '(', .digits 1 4, .optChar ')',
   .optSep, .digits 1 4, .optSep, .digits 1 9]

/-- Pattern 3: `\b\d{10}\b` (bare ten digits; the boundary flag of `reScan`
supplies the `\b`s). -/
def phonePattern3 : List RElem := [.digits 10 10]

/-- All match candidates of the three phone patterns against `text`, in the
order the source's `phonePatterns.forEach` visits them. -/
def phoneMatches (text : String) : List String :=
  ((reScan (text.length + 1) phonePattern1 false none text.data) ++
   (reScan (text.length + 1) phonePattern2 false none text.data) ++
   (reScan (text.length + 1) phonePattern3 true none text.data)).map
    (fun l => (⟨l⟩ : String))

/-- `num.replace(/[\s.-]/g, '')`: strip whitespace, dots and hyphens. -/
def stripSeps (s : String) : String := ⟨s.data.filter (fun c => ! isSepClass c)⟩

/-- `extractPhoneNumbers(text)` from `src/utils/contact-parser.js`: for every
candidate matched by some pattern, keep it (trimmed) when the
separator-stripped form has at least 10 characters, collecting results in a
JS `Set` (first-insertion order, no duplicates). -/
def extractPhoneNumbers (text : String) : List String :=
  if text = "" then []
  else
    (phoneMatches text).foldl
      (fun numbers num =>
        let cleaned := stripSeps num
        if 10 ≤ cleaned.length then jsSetAdd numbers (jsTrim num) else numbers)
      []

/-- Modelled from the spec (§4.4, amended): keep exactly the matched
candidates whose separator-stripped form has at least 10 characters
(digits plus any `+` or parentheses), trimmed, with exact-string duplicates
removed in first-seen order. -/
def specExtractPhoneNumbers (text : String) : List String :=
  if text = "" then []
  else
    (((phoneMatches text).filter
        (fun num => 10 ≤ (stripSeps num).length)).map jsTrim).foldl jsSetAdd []

/-- Count of decimal digits left after separator stripping (used to state the
counterexample to the "≥ 9 digits" reading of the claim). -/
def digitCount (s : String) : Nat := ((stripSeps s).data.filter Char.isDigit).length

/-! ## `src/utils/newsletter-detector.js`

The scanner functions are embedded with their string plumbing (lowercasing,
header-map construction, prefix and literal-alternation tests, substring
counts) fully concrete.  A JS regex whose semantics goes beyond a literal
alternation or anchored literal alternation (bounded `.{0,n}` gaps, counted
`1×1`-image attributes, operator-supplied custom patterns) is abstracted as a
field of a `RegexSemantics` record passed to the functions; every claim below
is proved for an arbitrary such record, so nothing depends on the behaviour
of those tests. -/

/-- Abstracted JS regex tests: each field is documented with the source regex
it stands for. -/
structure RegexSemantics where
  /-- `/(view|read|voir|lire|afficher|consulter).{0,50}(this|email|message|ce|cet|cette|it).{0,50}(in|on|dans|sur).{0,20}(your |le |votre |ton |ta )?(navigat(eur|or)|browser)|afficher dans le navigateur|voir en ligne/i` -/
  viewInBrowserTest : String → Bool
  /-- `/(update|manage|change|modifier|g(é|e)rer|mettre (à|a) jour).{0,50}(your |vos |mes |tes )?((e-?mail|courriel) )?pr(é|e)f(é|e)rences/i` -/
  updatePreferencesTest : String → Bool
  /-- `/(manage|modify|g(é|e)rer|modifier).{0,30}(your |votre |mon |ton )?(subscription|abonnement|inscription)/i` -/
  manageSubscriptionTest : String → Bool
  /-- `/(cet?|ce) (e-?mail|courriel|message) (vous |t')?(a (é|e)t(é|e)|est) envoy(é|e)|vous recevez ce (message|mail|courriel)|lettre d'information|infolettre|bulletin d'information/i` -/
  frenchNewsletterPhraseTest : String → Bool
  /-- `/(follow us|connect with us|find us on|suivez[ -]nous|retrouvez[ -]nous|rejoignez[ -]nous|suivre|suivez).{0,100}(facebook|twitter|linkedin|instagram|social|r(é|e)seaux sociaux)/i` -/
  socialFooterTest : String → Bool
  /-- Number of matches of the tracking-pixel regex `/width\s*=\s*["']?1["']?\s+height\s*=\s*["']?1["']?|height\s*=\s*["']?1["']?\s+width\s*=\s*["']?1["']?/gi`. -/
  trackingPixelCount : String → Nat
  /-- `new RegExp(pattern, 'i').test(input)` for an operator-supplied custom
  pattern, `false` when the pattern fails to compile (the source logs and
  skips invalid patterns). -/
  customPatternTest : String → String → Bool

/-- The trivial instantiation (no abstracted regex ever matches), used to
evaluate the embedding on concrete inputs whose outcome cannot depend on the
abstracted tests. -/
def noRegex : RegexSemantics :=
  ⟨fun _ => false, fun _ => false, fun _ => false, fun _ => false,
   fun _ => false, fun _ => 0, fun _ _ => false⟩

/-- Graph API `emailAddress` object. -/
structure EmailAddress where
  name : Option String
  address : Option String
deriving Repr, DecidableEq

/-- Graph API recipient / `from` object. -/
structure Recipient where
  emailAddress : Option EmailAddress
deriving Repr, DecidableEq

/-- One internet message header. -/
structure Header where
  name : Option String
  value : Option String
deriving Repr, DecidableEq

/-- Graph API `body` object. -/
structure EmailBody where
  content : Option String
deriving Repr, DecidableEq

/-- A Graph API email message as consumed by the detector.  `id = ""` plays
the role of a missing (falsy) identifier; the message object itself being
`null` is modelled by passing `none` to `detectNewsletter`. -/
structure Email where
  id : String
  receivedDateTime : Option String
  subject : Option String
  from_ : Option Recipient
  toRecipients : Option (List Recipient)
  ccRecipients : Option (List Recipient)
  bccRecipients : Option (List Recipient)
  internetMessageHeaders : Option (List Header)
  body : Option EmailBody
deriving Repr, DecidableEq

/-- `{ isNewsletter, confidence, signals, reason }`. -/
structure DetectionResult where
  isNewsletter : Bool
  confidence : Nat
  signals : List String
  reason : String
deriving Repr, DecidableEq

/-- The fixed fail-safe result returned for null / identifier-less input (and
on internal errors). -/
def failsafeResult : DetectionResult :=
  ⟨false, 0, ["detection-error"], "detection-error"⟩

/-- The `headerMap` built by `checkHeaders`: lowercased name ↦ lowercased
value, later headers overwriting earlier ones, entries with falsy name or
value skipped. -/
def lookupHeader (headers : List Header) (key : String) : Option String :=
  headers.foldl
    (fun acc h =>
      match h.name, h.value with
      | some n, some v =>
        if n ≠ "" && v ≠ "" && jsLower n = key then some (jsLower v) else acc
      | _, _ => acc)
    none

/-- Literal alternation of the ESP regex
`/mailchimp|sendgrid|constant contact|campaign monitor|mailgun|postmark|amazonses|sendinblue|brevo|mailjet/i`
(tested against an already-lowercased value). -/
def espLiterals : List String :=
  ["mailchimp", "sendgrid", "constant contact", "campaign monitor", "mailgun",
   "postmark", "amazonses", "sendinblue", "brevo", "mailjet"]

/-- `checkHeaders(headers, signals)`: score contribution and appended tags. -/
def checkHeaders (headers : Option (List Header)) : Nat × List String :=
  match headers with
  | none => (0, [])
  | some hs =>
    let s1 : Nat × List String :=
      if (lookupHeader hs "list-unsubscribe").isSome
      then (25, ["list-unsubscribe-header"]) else (0, [])
    let precedence := (lookupHeader hs "precedence").getD ""
    let s2 : Nat × List String :=
      if containsSub precedence "bulk" || containsSub precedence "list"
      then (20, ["bulk-precedence"]) else (0, [])
    let s3 : Nat × List String :=
      if (lookupHeader hs "list-id").isSome
      then (20, ["list-id-header"]) else (0, [])
    let mailer :=
      match lookupHeader hs "x-mailer" with
      | some v => v
      | none =>
        match lookupHeader hs "x-sender" with
        | some v => v
        | none => (lookupHeader hs "x-campaign").getD ""
    let s4 : Nat × List String :=
      if espLiterals.any (fun p => containsSub mailer p)
      then (25, ["esp-mailer"]) else (0, [])
    (s1.1 + s2.1 + s3.1 + s4.1, s1.2 ++ s2.2 ++ s3.2 ++ s4.2)

/-- Expansion of `/^(no-?reply|do-?not-?reply|noreply|ne-?pas-?repondre|nepasrepondre)@/i`
into anchored literals (tested against the lowercased address). -/
def noReplyLiterals : List String :=
  ["no-reply@", "noreply@", "do-not-reply@", "do-notreply@", "donot-reply@",
   "donotreply@", "ne-pas-repondre@", "ne-pasrepondre@", "nepas-repondre@",
   "nepasrepondre@"]

/-- Expansion of `/^(info|newsletter|marketing|news|updates|notifications|lettre|actualit(é|e)s?|communication|diffusion|bulletin)@/i`. -/
def marketingLiterals : List String :=
  ["info@", "newsletter@", "marketing@", "news@", "updates@", "notifications@",
   "lettre@", "actualités@", "actualites@", "actualité@", "actualite@",
   "communication@", "diffusion@", "bulletin@"]

/-- Expansion of `/^(automated?|auto|notification|alerts?|system|automatique|alerte)@/i`. -/
def automatedLiterals : List String :=
  ["automated@", "automate@", "auto@", "notification@", "alerts@", "alert@",
   "system@", "automatique@", "alerte@"]

/-- Expansion of `/^(contact|service|support|accueil|equipe)@/i`. -/
def genericFrenchLiterals : List String :=
  ["contact@", "service@", "support@", "accueil@", "equipe@"]

/-- `checkSenderPatterns(from, signals)`. -/
def checkSenderPatterns (from_ : Option Recipient) : Nat × List String :=
  match from_ >>= (fun r => r.emailAddress) >>= (fun a => a.address) with
  | none => (0, [])
  | some addr =>
    if addr = "" then (0, [])
    else
      let email := jsLower addr
      let s1 : Nat × List String :=
        if noReplyLiterals.any (fun p => email.startsWith p)
        then (15, ["noreply-sender"]) else (0, [])
      let s2 : Nat × List String :=
        if marketingLiterals.any (fun p => email.startsWith p)
        then (10, ["marketing-sender"]) else (0, [])
      let s3 : Nat × List String :=
        if automatedLiterals.any (fun p => email.startsWith p)
        then (12, ["automated-sender"]) else (0, [])
      let s4 : Nat × List String :=
        if genericFrenchLiterals.any (fun p => email.startsWith p)
        then (8, ["generic-french-sender"]) else (0, [])
      (s1.1 + s2.1 + s3.1 + s4.1, s1.2 ++ s2.2 ++ s3.2 ++ s4.2)

/-- Expansion of the unsubscribe regex
`/unsubscribe|se d(é|e)sabonner|d(é|e)sabonnement|d(é|e)sinscription|ne plus recevoir/i`. -/
def unsubscribeLiterals : List String :=
  ["unsubscribe", "se désabonner", "se desabonner", "désabonnement",
   "desabonnement", "désinscription", "desinscription", "ne plus recevoir"]

/-- Expansion of the English newsletter-phrase regex
`/(this|the) (email|message|newsletter) (was|has been) sent|you (are receiving|received) this (email|message)|email newsletter|mailing list/i`. -/
def englishPhraseLiterals : List String :=
  ["this email was sent", "this email has been sent",
   "this message was sent", "this message has been sent",
   "this newsletter was sent", "this newsletter has been sent",
   "the email was sent", "the email has been sent",
   "the message was sent", "the message has been sent",
   "the newsletter was sent", "the newsletter has been sent",
   "you are receiving this email", "you are receiving this message",
   "you received this email", "you received this message",
   "email newsletter", "mailing list"]

/-- Expansion of the French privacy-footer regex
`/politique de confidentialit(é|e)|protection des donn(é|e)es|mentions l(é|e)gales|conform(é|e)ment (à|a) la loi|cnil|rgpd/i`. -/
def privacyFrLiterals : List String :=
  ["politique de confidentialité", "politique de confidentialite",
   "protection des données", "protection des donnees",
   "mentions légales", "mentions legales",
   "conformément à la loi", "conformément a la loi",
   "conformement à la loi", "conformement a la loi", "cnil", "rgpd"]

/-- Expansion of the English privacy-footer regex
`/privacy policy|data protection|legal notice|terms (of service|and conditions)|gdpr|unsubscribe policy/i`. -/
def privacyEnLiterals : List String :=
  ["privacy policy", "data protection", "legal notice", "terms of service",
   "terms and conditions", "gdpr", "unsubscribe policy"]

/-- `checkBodyContent(htmlContent, signals)`. -/
def checkBodyContent (R : RegexSemantics) (htmlContent : Option String) :
    Nat × List String :=
  match htmlContent with
  | none => (0, [])
  | some html =>
    if html = "" then (0, [])
    else
      let lowerContent := jsLower html
      let s1 : Nat × List String :=
        if unsubscribeLiterals.any (fun p => containsSub lowerContent p)
        then (20, ["unsubscribe-link"]) else (0, [])
      let s2 : Nat × List String :=
        if R.viewInBrowserTest lowerContent
        then (15, ["view-in-browser"]) else (0, [])
      let s3 : Nat × List String :=
        if R.updatePreferencesTest lowerContent
        then (12, ["update-preferences"]) else (0, [])
      let s4 : Nat × List String :=
        if R.manageSubscriptionTest lowerContent
        then (10, ["manage-subscription"]) else (0, [])
      let s5 : Nat × List String :=
        if R.frenchNewsletterPhraseTest lowerContent
        then (12, ["french-newsletter-phrase"]) else (0, [])
      let s6 : Nat × List String :=
        if englishPhraseLiterals.any (fun p => containsSub lowerContent p)
        then (12, ["english-newsletter-phrase"]) else (0, [])
      let s7 : Nat × List String :=
        if 2 ≤ R.trackingPixelCount html
        then (8, ["tracking-pixels"]) else (0, [])
      let s8 : Nat × List String :=
        if R.socialFooterTest lowerContent
        then (8, ["social-footer"]) else (0, [])
      let s9 : Nat × List String :=
        if privacyFrLiterals.any (fun p => containsSub lowerContent p)
        then (5, ["privacy-footer"]) else (0, [])
      let s10 : Nat × List String :=
        if privacyEnLiterals.any (fun p => containsSub lowerContent p)
        then (5, ["privacy-footer-en"]) else (0, [])
      (s1.1 + s2.1 + s3.1 + s4.1 + s5.1 + s6.1 + s7.1 + s8.1 + s9.1 + s10.1,
       s1.2 ++ s2.2 ++ s3.2 ++ s4.2 ++ s5.2 ++ s6.2 ++ s7.2 ++ s8.2 ++ s9.2 ++
       s10.2)

/-- Expansion of the generic-recipient regex
`/valued customer|dear subscriber|dear user|dear member|newsletter subscriber|cher client|cher abonn(é|e)|cher membre|cher(e)? utilisateur|bonjour (à|a) tous|madame,? monsieur|cher lecteur|ami(e)? lecteur/i`. -/
def genericRecipientLiterals : List String :=
  ["valued customer", "dear subscriber", "dear user", "dear member",
   "newsletter subscriber", "cher client", "cher abonné", "cher abonne",
   "cher membre", "cher utilisateur", "chere utilisateur",
   "bonjour à tous", "bonjour a tous", "madame, monsieur", "madame monsieur",
   "cher lecteur", "ami lecteur", "amie lecteur"]

/-- `checkRecipientPatterns(toRecipients, ccRecipients, bccRecipients, signals)`. -/
def checkRecipientPatterns (toRecipients _ccRecipients bccRecipients :
    Option (List Recipient)) : Nat × List String :=
  let s1 : Nat × List String :=
    match bccRecipients with
    | some l => if ! l.isEmpty then (15, ["bcc-recipient"]) else (0, [])
    | none => (0, [])
  let toNames :=
    match toRecipients with
    | some l =>
      l.map (fun r =>
        match (Recipient.emailAddress r).bind EmailAddress.name with
        | some n => jsLower n
        | none => "")
    | none => []
  let s2 : Nat × List String :=
    if toNames.any
        (fun nm => genericRecipientLiterals.any (fun p => containsSub nm p))
    then (10, ["generic-recipient"]) else (0, [])
  (s1.1 + s2.1, s1.2 ++ s2.2)

/-- `htmlContent.replace(/<[^>]*>/g, '')`: remove every `<…>` span that has a
closing `>` (an unclosed `<` is kept, as the regex cannot match it). -/
def stripTags : Nat → List Char → List Char
  | 0, l => l
  | _ + 1, [] => []
  | fuel + 1, c :: rest =>
    if c = '<' && rest.contains '>' then
      stripTags fuel ((rest.dropWhile (fun d => d ≠ '>')).drop 1)
    else c :: stripTags fuel rest

/-- `checkEmailStructure(htmlContent, signals)`.  The float comparison
`imageCount / Math.max(textLength / 100, 1) > 0.7` is modelled exactly over
the rationals (`1000·imageCount > 7·textLength` when `textLength > 100`,
`10·imageCount > 7` otherwise). -/
def checkEmailStructure (htmlContent : Option String) : Nat × List String :=
  match htmlContent with
  | none => (0, [])
  | some html =>
    if html = "" then (0, [])
    else
      let lower := jsLower html
      let tableCount := countSub lower "<table"
      let s1 : Nat × List String :=
        if 5 < tableCount then (5, ["table-layout"]) else (0, [])
      let imageCount := countSub lower "<img"
      let textLength := (trimList (stripTags html.length html.data)).length
      let s2 : Nat × List String :=
        if 0 < textLength && 0 < imageCount then
          if (if 100 < textLength
              then decide (7 * textLength < 1000 * imageCount)
              else decide (7 < 10 * imageCount))
          then (10, ["high-image-ratio"]) else (0, [])
        else (0, [])
      (s1.1 + s2.1, s1.2 ++ s2.2)

/-- Expansion of the subject regex
`/(newsletter|bulletin|digest|roundup|weekly|monthly|update|actualit(é|e)s?|lettre d'information|hebdomadaire|mensuel|r(é|e)capitulatif)/i`. -/
def subjectLiterals : List String :=
  ["newsletter", "bulletin", "digest", "roundup", "weekly", "monthly",
   "update", "actualité", "actualite", "actualités", "actualites",
   "lettre d'information", "hebdomadaire", "mensuel", "récapitulatif",
   "recapitulatif"]

/-- `checkSubject(subject, signals)`. -/
def checkSubject (subject : Option String) : Nat × List String :=
  match subject with
  | none => (0, [])
  | some subj =>
    if subj = "" then (0, [])
    else
      let lowerSubject := jsLower subj
      if subjectLiterals.any (fun p => containsSub lowerSubject p)
      then (10, ["newsletter-subject"]) else (0, [])

/-- `detectNewsletter(email, threshold)` from
`src/utils/newsletter-detector.js`: null or identifier-less input
short-circuits to the fail-safe result before any scanning (and before the
cache lookup); otherwise the six scanners run in order, their scores are
summed and clamped to 100, and the reason is the first three tags joined (or
`"no-signals"`).  The detection cache is not modelled: it only ever stores
values this computation produced. -/
def detectNewsletter (R : RegexSemantics) (email : Option Email)
    (threshold : Nat) : DetectionResult :=
  match email with
  | none => failsafeResult
  | some e =>
    if e.id = "" then failsafeResult
    else
      let r1 := checkHeaders e.internetMessageHeaders
      let r2 := checkSenderPatterns e.from_
      let r3 := checkBodyContent R (e.body >>= (fun b => b.content))
      let r4 := checkRecipientPatterns e.toRecipients e.ccRecipients
        e.bccRecipients
      let r5 := checkEmailStructure (e.body >>= (fun b => b.content))
      let r6 := checkSubject e.subject
      let score := r1.1 + r2.1 + r3.1 + r4.1 + r5.1 + r6.1
      let signals := r1.2 ++ r2.2 ++ r3.2 ++ r4.2 ++ r5.2 ++ r6.2
      let reasonStr := jsJoin ", " (signals.take 3)
      ⟨decide (threshold ≤ score), min score 100, signals,
       if reasonStr = "" then "no-signals" else reasonStr⟩

/-- `{ domains, senders }` of a whitelist/blacklist entry. -/
structure RuleList where
  domains : Option (List String)
  senders : Option (List String)
deriving Repr, DecidableEq

/-- `{ senderPatterns, subjectPatterns }`. -/
structure CustomPatterns where
  senderPatterns : Option (List String)
  subjectPatterns : Option (List String)
deriving Repr, DecidableEq

/-- Rules loaded from `newsletter-rules.json`. -/
structure Rules where
  whitelist : Option RuleList
  blacklist : Option RuleList
  customPatterns : Option CustomPatterns
deriving Repr, DecidableEq

/-- The sender address reached by `email?.from?.emailAddress?.address`. -/
def senderAddress (email : Option Email) : Option String :=
  ((email.bind Email.from_).bind Recipient.emailAddress).bind
    EmailAddress.address

/-- `senderEmail.split('@')[1] || ''`. -/
def senderDomainOf (senderEmail : String) : String :=
  (jsSplitChar '@' senderEmail).getD 1 ""

/-- `applyWhitelistBlacklist(email, detection, rules)` from
`src/utils/newsletter-detector.js`: whitelist, then blacklist, then custom
sender patterns, then custom subject patterns; first match returns. -/
def applyWhitelistBlacklist (R : RegexSemantics) (email : Option Email)
    (detection : DetectionResult) (rules : Option Rules) : DetectionResult :=
  match rules, senderAddress email with
  | none, _ => detection
  | some _, none => detection
  | some r, some addr =>
    if addr = "" then detection
    else
      let senderEmail := jsLower addr
      let senderDomain := senderDomainOf senderEmail
      let wlHit :=
        match r.whitelist with
        | none => false
        | some wl =>
          ((wl.domains.getD []).map jsLower).contains senderDomain ||
          ((wl.senders.getD []).map jsLower).contains senderEmail
      if wlHit then
        ⟨false, detection.confidence, detection.signals ++ ["whitelisted"],
         "whitelisted"⟩
      else
        let blHit :=
          match r.blacklist with
          | none => false
          | some bl =>
            ((bl.domains.getD []).map jsLower).contains senderDomain ||
            ((bl.senders.getD []).map jsLower).contains senderEmail
        if blHit then
          ⟨true, 100, detection.signals ++ ["blacklisted"], "blacklisted"⟩
        else
          match r.customPatterns with
          | none => detection
          | some cp =>
            if (cp.senderPatterns.getD []).any
                (fun p => R.customPatternTest p senderEmail) then
              ⟨true, max detection.confidence 75,
               detection.signals ++ ["custom-sender-pattern"],
               "custom-sender-pattern"⟩
            else
              let subject := ((email >>= (fun e => e.subject)).getD "")
              if (cp.subjectPatterns.getD []).any
                  (fun p => R.customPatternTest p subject) then
                ⟨true, max detection.confidence 75,
                 detection.signals ++ ["custom-subject-pattern"],
                 "custom-subject-pattern"⟩
              else detection

/-! ## Field-level comparison infrastructure for the merge claims -/

/-- Normalise a string field modulo JS falsiness: `null`/`undefined` and `""`
all denote "no value". -/
def normS (v : Option String) : Option String := if truthyS v then v else none

/-- Normalise a boolean field modulo JS falsiness. -/
def normB (v : Option Bool) : Option Bool := if truthyB v then v else none

/-- Two list fields agree as sets (the claim compares list fields
"as set-unions"); presence of the array must agree. -/
def optListSetEq : Option (List String) → Option (List String) → Prop
  | some a, some b => ∀ x : String, x ∈ a ↔ x ∈ b
  | none, none => True
  | _, _ => False

/-- Two merged contacts agree on every final field value: scalar fields up to
JS falsiness, list fields as sets. -/
def contactEquiv (m m' : Contact) : Prop :=
  m.email = m'.email ∧
  normS m.displayName = normS m'.displayName ∧
  normS m.firstName = normS m'.firstName ∧
  normS m.lastName = normS m'.lastName ∧
  optListSetEq m.phoneNumbers m'.phoneNumbers ∧
  optListSetEq m.linkedInUrls m'.linkedInUrls ∧
  normS m.companyName = normS m'.companyName ∧
  normS m.jobTitle = normS m'.jobTitle ∧
  normS m.source = normS m'.source ∧
  normB m.isInOutlook = normB m'.isInOutlook ∧
  normS m.firstSeenDate = normS m'.firstSeenDate ∧
  normS m.extractionConfidence = normS m'.extractionConfidence

/-! ## Concrete inputs used by counterexamples and witnesses -/

/-- Two sightings of `a@x.com`, both metadata-sourced, with conflicting
display names (equal source priority, so the JS tie-break keeps the first
value). -/
def cexMergeA : Contact :=
  ⟨"a@x.com", some "Alice A", none, none, none, none, none, none,
   some "metadata", none, none, none⟩

/-- Second sighting conflicting with `cexMergeA` only in `displayName`. -/
def cexMergeB : Contact :=
  ⟨"a@x.com", some "A. Anders", none, none, none, none, none, none,
   some "metadata", none, none, none⟩

/-- Metadata-sourced sighting whose `firstSeenDate` parses to the same JS
time value as `cexDateBody`'s despite being a different string. -/
def cexDateMeta : Contact :=
  ⟨"d@x.com", none, none, none, none, none, none, none, some "metadata",
   none, some "2025-01-01T00:00:00Z", some "high"⟩

/-- Body-sourced sighting with an equal-parsing but distinct
`firstSeenDate` string. -/
def cexDateBody : Contact :=
  ⟨"d@x.com", none, none, none, none, none, none, none, some "body",
   none, some "2025-01-01T00:00:00.000Z", some "high"⟩

/-- Metadata-sourced sighting used by the order-independence witness. -/
def witMergeMeta : Contact :=
  ⟨"w@x.com", some "Wendy W", none, none, some ["555-1"], none, none, none,
   some "metadata", none, some "2025-01-02T00:00:00Z", some "high"⟩

/-- Body-sourced sighting used by the order-independence witness. -/
def witMergeBody : Contact :=
  ⟨"w@x.com", some "W. Wu", none, none, some ["555-2"], none,
   some "Example Corp", none, some "body", none, some "2025-01-01T00:00:00Z",
   some "high"⟩

/-- A contact with an empty email and otherwise non-trivial data (dropped by
`deduplicateContacts` although it duplicates nothing). -/
def cexNoEmail : Contact :=
  ⟨"", some "Nameless", none, none, none, none, none, none, some "body",
   none, none, none⟩

/-- A fully-populated, newline-free contact for the CSV witness. -/
def witCsvContact : Contact :=
  ⟨"john@example.com", some "John Doe", some "John", some "Doe",
   some ["555-1234"], some [], none, some "CEO", some "metadata", some false,
   some "2025-01-01", some "high"⟩

/-- Rules putting the domain `x.com` on both the whitelist and the blacklist
(whitelist precedence then defeats the blacklist). -/
def cexRulesBoth : Rules :=
  ⟨some ⟨some ["x.com"], none⟩, some ⟨some ["x.com"], none⟩, none⟩

/-- Blacklist-only rules for the amended blacklist witness. -/
def witRulesBlacklist : Rules :=
  ⟨none, some ⟨some ["x.com"], none⟩, none⟩

/-- A message from `a@x.com`. -/
def cexEmailFromX : Email :=
  ⟨"m1", none, none, some ⟨some ⟨some "Ann", some "a@x.com"⟩⟩, none, none,
   none, none, none⟩

/-- A low-confidence non-newsletter detection input for the rule-override
counterexamples. -/
def cexDetection : DetectionResult := ⟨false, 10, [], "no-signals"⟩

/-! ## Lemmas about the JS `Set` embedding -/

theorem mem_jsSetAdd (l : List String) (x y : String) :
    y ∈ jsSetAdd l x ↔ y ∈ l ∨ y = x := by
  unfold jsSetAdd
  by_cases hx : x ∈ l
  · simp only [if_pos hx]
    constructor
    · exact fun h => Or.inl h
    · rintro (h | rfl)
      · exact h
      · exact hx
  · simp [if_neg hx]

theorem mem_foldl_jsSetAdd (l acc : List String) (y : String) :
    y ∈ l.foldl jsSetAdd acc ↔ y ∈ acc ∨ y ∈ l := by
  induction l generalizing acc with
  | nil => simp
  | cons a t ih =>
    simp only [List.foldl_cons, ih, mem_jsSetAdd, List.mem_cons]
    tauto

theorem mem_jsSetUnion (a b : List String) (y : String) :
    y ∈ jsSetUnion a b ↔ y ∈ a ∨ y ∈ b := by
  unfold jsSetUnion
  rw [mem_foldl_jsSetAdd]
  simp

theorem nodup_jsSetAdd (l : List String) (x : String) (h : l.Nodup) :
    (jsSetAdd l x).Nodup := by
  unfold jsSetAdd
  by_cases hx : x ∈ l
  · simpa [hx]
  · rw [if_neg hx]
    refine h.append (List.nodup_singleton x) ?_
    intro a ha hb
    rw [List.mem_singleton] at hb
    exact hx (hb ▸ ha)

theorem nodup_foldl_jsSetAdd (l acc : List String) (h : acc.Nodup) :
    (l.foldl jsSetAdd acc).Nodup := by
  induction l generalizing acc with
  | nil => simpa
  | cons a t ih => exact ih (jsSetAdd acc a) (nodup_jsSetAdd acc a h)

/-! ## Lemmas about the generic merge loop -/

theorem mergeField_of_lt {p1 p2 : Nat} (h : p1 < p2) (v1 v2 : Option String) :
    mergeField p1 p2 v1 v2 = if truthyS v2 then v2 else v1 := by
  unfold mergeField
  cases hv2 : truthyS v2 <;> cases hv1 : truthyS v1 <;> simp [h]

theorem mergeField_of_not_lt {p1 p2 : Nat} (h : ¬ p1 < p2)
    (v1 v2 : Option String) :
    mergeField p1 p2 v1 v2 = if truthyS v2 && ! truthyS v1 then v2 else v1 := by
  unfold mergeField
  cases hv2 : truthyS v2 <;> cases hv1 : truthyS v1 <;> simp [h]

theorem mergeField_self (p1 p2 : Nat) (v : Option String) :
    mergeField p1 p2 v v = v := by
  unfold mergeField
  by_cases h : truthyS v <;> simp [h]

theorem normS_mergeField_comm {p1 p2 : Nat} (h : p1 < p2)
    (v1 v2 : Option String) :
    normS (mergeField p1 p2 v1 v2) = normS (mergeField p2 p1 v2 v1) := by
  rw [mergeField_of_lt h, mergeField_of_not_lt (Nat.not_lt.mpr (Nat.le_of_lt h))]
  cases hv2 : truthyS v2 <;> cases hv1 : truthyS v1 <;>
    simp [normS, hv1, hv2]

theorem normB_mergeFieldB_comm {p1 p2 : Nat} (h : p1 < p2)
    (v1 v2 : Option Bool) :
    normB (mergeFieldB p1 p2 v1 v2) = normB (mergeFieldB p2 p1 v2 v1) := by
  unfold mergeFieldB
  have h' : ¬ p2 < p1 := Nat.not_lt.mpr (Nat.le_of_lt h)
  cases hv2 : truthyB v2 <;> cases hv1 : truthyB v1 <;>
    simp [normB, hv1, hv2, h, h']

theorem optListSetEq_refl (a : Option (List String)) : optListSetEq a a := by
  cases a
  · trivial
  · exact fun _ => Iff.rfl

theorem optListSetEq_symm : ∀ {a b : Option (List String)},
    optListSetEq a b → optListSetEq b a
  | none, none, _ => trivial
  | some _, some _, h => fun x => (h x).symm
  | none, some _, h => h.elim
  | some _, none, h => h.elim

theorem contactEquiv_symm {m m' : Contact} (h : contactEquiv m m') :
    contactEquiv m' m := by
  obtain ⟨h1, h2, h3, h4, h5, h6, h7, h8, h9, h10, h11, h12⟩ := h
  exact ⟨h1.symm, h2.symm, h3.symm, h4.symm, optListSetEq_symm h5,
    optListSetEq_symm h6, h7.symm, h8.symm, h9.symm, h10.symm, h11.symm,
    h12.symm⟩

theorem jsDateLt_asymm (a b : String) (h : jsDateLt a b = true) :
    jsDateLt b a = false := by
  unfold jsDateLt at h ⊢
  rcases ha : jsDateVal a with _ | t1 <;> rcases hb : jsDateVal b with _ | t2 <;>
    rw [ha, hb] at h
  all_goals try simp_all
  all_goals omega

theorem mergeContacts_comm_aux (c1 c2 : Contact)
    (he : c1.email = c2.email)
    (hlt : sourcePriority c1.source < sourcePriority c2.source)
    (hec : c1.extractionConfidence = c2.extractionConfidence)
    (hfsd : ∀ d1 d2 : String, c1.firstSeenDate = some d1 →
      c2.firstSeenDate = some d2 → d1 ≠ "" → d2 ≠ "" →
      jsDateLt d1 d2 = true ∨ jsDateLt d2 d1 = true ∨ d1 = d2) :
    contactEquiv (mergeContacts c1 c2) (mergeContacts c2 c1) := by
  have hnlt : ¬ sourcePriority c2.source < sourcePriority c1.source :=
    Nat.not_lt.mpr (Nat.le_of_lt hlt)
  refine ⟨he, ?_, ?_, ?_, ?_, ?_, ?_, ?_, ?_, ?_, ?_, ?_⟩
  · exact normS_mergeField_comm hlt _ _
  · exact normS_mergeField_comm hlt _ _
  · exact normS_mergeField_comm hlt _ _
  · -- phoneNumbers
    show optListSetEq
      (match c1.phoneNumbers, c2.phoneNumbers with
       | some a, some b => some (jsSetUnion a b)
       | _, _ => mergeFieldL (sourcePriority c1.source)
           (sourcePriority c2.source) c1.phoneNumbers c2.phoneNumbers)
      (match c2.phoneNumbers, c1.phoneNumbers with
       | some a, some b => some (jsSetUnion a b)
       | _, _ => mergeFieldL (sourcePriority c2.source)
           (sourcePriority c1.source) c2.phoneNumbers c1.phoneNumbers)
    cases h1 : c1.phoneNumbers with
    | none =>
      cases h2 : c2.phoneNumbers with
      | none => simp [mergeFieldL, truthyL, optListSetEq]
      | some b =>
        simp only [mergeFieldL, truthyL]
        simp [optListSetEq_refl]
    | some a =>
      cases h2 : c2.phoneNumbers with
      | none =>
        simp only [mergeFieldL, truthyL]
        simp [hnlt, optListSetEq_refl]
      | some b =>
        intro x
        rw [mem_jsSetUnion, mem_jsSetUnion]
        tauto
  · -- linkedInUrls
    show optListSetEq
      (match c1.linkedInUrls, c2.linkedInUrls with
       | some a, some b => some (jsSetUnion a b)
       | _, _ => mergeFieldL (sourcePriority c1.source)
           (sourcePriority c2.source) c1.linkedInUrls c2.linkedInUrls)
      (match c2.linkedInUrls, c1.linkedInUrls with
       | some a, some b => some (jsSetUnion a b)
       | _, _ => mergeFieldL (sourcePriority c2.source)
           (sourcePriority c1.source) c2.linkedInUrls c1.linkedInUrls)
    cases h1 : c1.linkedInUrls with
    | none =>
      cases h2 : c2.linkedInUrls with
      | none => simp [mergeFieldL, truthyL, optListSetEq]
      | some b =>
        simp only [mergeFieldL, truthyL]
        simp [optListSetEq_refl]
    | some a =>
      cases h2 : c2.linkedInUrls with
      | none =>
        simp only [mergeFieldL, truthyL]
        simp [hnlt, optListSetEq_refl]
      | some b =>
        intro x
        rw [mem_jsSetUnion, mem_jsSetUnion]
        tauto
  · exact normS_mergeField_comm hlt _ _
  · exact normS_mergeField_comm hlt _ _
  · exact normS_mergeField_comm hlt _ _
  · exact normB_mergeFieldB_comm hlt _ _
  · -- firstSeenDate
    show normS
      (if truthyS c1.firstSeenDate && truthyS c2.firstSeenDate then
        match c1.firstSeenDate, c2.firstSeenDate with
        | some d1, some d2 => if jsDateLt d1 d2 then some d1 else some d2
        | _, _ => mergeField (sourcePriority c1.source)
            (sourcePriority c2.source) c1.firstSeenDate c2.firstSeenDate
       else mergeField (sourcePriority c1.source) (sourcePriority c2.source)
         c1.firstSeenDate c2.firstSeenDate) =
      normS
      (if truthyS c2.firstSeenDate && truthyS c1.firstSeenDate then
        match c2.firstSeenDate, c1.firstSeenDate with
        | some d1, some d2 => if jsDateLt d1 d2 then some d1 else some d2
        | _, _ => mergeField (sourcePriority c2.source)
            (sourcePriority c1.source) c2.firstSeenDate c1.firstSeenDate
       else mergeField (sourcePriority c2.source) (sourcePriority c1.source)
         c2.firstSeenDate c1.firstSeenDate)
    by_cases hf1 : truthyS c1.firstSeenDate
    · by_cases hf2 : truthyS c2.firstSeenDate
      · cases hd1 : c1.firstSeenDate with
        | none => rw [hd1] at hf1; exact absurd hf1 (by simp [truthyS])
        | some d1 =>
          cases hd2 : c2.firstSeenDate with
          | none => rw [hd2] at hf2; exact absurd hf2 (by simp [truthyS])
          | some d2 =>
            have hne1 : d1 ≠ "" := by
              rw [hd1] at hf1
              simpa [truthyS] using hf1
            have hne2 : d2 ≠ "" := by
              rw [hd2] at hf2
              simpa [truthyS] using hf2
            rw [hd1] at hf1
            rw [hd2] at hf2
            simp only [hf1, hf2, Bool.and_self, if_pos]
            rcases hfsd d1 d2 hd1 hd2 hne1 hne2 with hd | hd | hd
            · rw [if_pos hd,
                if_neg (by simp [jsDateLt_asymm d1 d2 hd])]
            · rw [if_neg (by simp [jsDateLt_asymm d2 d1 hd]), if_pos hd]
            · subst hd
              simp
      · simp only [hf1, hf2, Bool.and_false, Bool.false_and, if_neg,
          Bool.false_eq_true, not_false_eq_true]
        exact normS_mergeField_comm hlt _ _
    · simp only [hf1, Bool.false_and, Bool.and_false, if_neg,
        Bool.false_eq_true, not_false_eq_true]
      exact normS_mergeField_comm hlt _ _
  · -- extractionConfidence
    show normS
      (if truthyS c2.extractionConfidence && truthyS c1.extractionConfidence
          && decide (confLevel c1.extractionConfidence <
            confLevel c2.extractionConfidence)
       then c2.extractionConfidence
       else mergeField (sourcePriority c1.source) (sourcePriority c2.source)
         c1.extractionConfidence c2.extractionConfidence) =
      normS
      (if truthyS c1.extractionConfidence && truthyS c2.extractionConfidence
          && decide (confLevel c2.extractionConfidence <
            confLevel c1.extractionConfidence)
       then c1.extractionConfidence
       else mergeField (sourcePriority c2.source) (sourcePriority c1.source)
         c2.extractionConfidence c1.extractionConfidence)
    rw [hec, mergeField_self, mergeField_self]

/-- C1 (amended): `mergeContacts` is order-independent on every final field
value — scalars up to JS falsiness, list fields as set-unions — provided the
two sightings carry the same raw email string, sources of strictly different
priority (metadata > signature > body), equal `extractionConfidence` fields,
and `firstSeenDate` values that, when both present and non-empty, are either
strictly ordered by the JS date comparison or equal as strings.  (With equal
priorities, a confidence tier running against the priority order, or
distinct date strings whose JS time values are equal or invalid, the merge
is order-dependent: see the counterexample.) -/
theorem mergeContacts_order_independent_of_distinct_priority (c1 c2 : Contact)
    (he : c1.email = c2.email)
    (hp : sourcePriority c1.source ≠ sourcePriority c2.source)
    (hec : c1.extractionConfidence = c2.extractionConfidence)
    (hfsd : ∀ d1 d2 : String, c1.firstSeenDate = some d1 →
      c2.firstSeenDate = some d2 → d1 ≠ "" → d2 ≠ "" →
      jsDateLt d1 d2 = true ∨ jsDateLt d2 d1 = true ∨ d1 = d2) :
    contactEquiv (mergeContacts c1 c2) (mergeContacts c2 c1) := by
  rcases Nat.lt_or_ge (sourcePriority c1.source) (sourcePriority c2.source)
    with h | h
  · exact mergeContacts_comm_aux c1 c2 he h hec hfsd
  · have h2 : sourcePriority c2.source < sourcePriority c1.source :=
      lt_of_le_of_ne h hp.symm
    refine contactEquiv_symm (mergeContacts_comm_aux c2 c1 he.symm h2 hec.symm
      ?_)
    intro d2 d1 h2' h1' hne2 hne1
    rcases hfsd d1 d2 h1' h2' hne1 hne2 with hd | hd | hd
    · exact Or.inr (Or.inl hd)
    · exact Or.inl hd
    · exact Or.inr (Or.inr hd.symm)

/-- C1 witness: a body-sourced and a metadata-sourced sighting of `w@x.com`
merge to equivalent records in either order. -/
theorem mergeContacts_order_independent_witness :
    contactEquiv (mergeContacts witMergeBody witMergeMeta)
      (mergeContacts witMergeMeta witMergeBody) :=
  mergeContacts_order_independent_of_distinct_priority witMergeBody witMergeMeta
    (by decide) (by decide) (by decide)
    (by
      intro d1 d2 h1 h2 _ _
      rw [show witMergeBody.firstSeenDate =
        some "2025-01-01T00:00:00Z" from rfl, Option.some.injEq] at h1
      rw [show witMergeMeta.firstSeenDate =
        some "2025-01-02T00:00:00Z" from rfl, Option.some.injEq] at h2
      subst h1
      subst h2
      left
      decide)

/-- C1 counterexample, two failure modes.  First, two sightings of `a@x.com`
with the same canonical email and the *same* source priority (both
`metadata`) but conflicting display names: `mergeContacts` keeps the
first-processed value in either order, so the merged records — and hence the
`deduplicateContacts` output on the two orderings of the list — differ.
Second, even with *distinct* priorities and equal confidence, two distinct
`firstSeenDate` strings parsing to the same JS time value
(`…T00:00:00Z` vs `…T00:00:00.000Z`): `new Date(d1) < new Date(d2)` is false
in both orders, so the earliest-date clause keeps the *second* argument's
string each time and the merged records differ on `firstSeenDate`.  Arrival
order, not only priority, decides such conflicts, contradicting the claim. -/
theorem mergeContacts_not_order_independent :
    canonEmail cexMergeA.email = canonEmail cexMergeB.email ∧
    cexMergeA.source = cexMergeB.source ∧
    (mergeContacts cexMergeA cexMergeB).displayName = some "Alice A" ∧
    (mergeContacts cexMergeB cexMergeA).displayName = some "A. Anders" ∧
    (deduplicateContacts [cexMergeA, cexMergeB]).deduplicated ≠
      (deduplicateContacts [cexMergeB, cexMergeA]).deduplicated ∧
    sourcePriority cexDateMeta.source ≠ sourcePriority cexDateBody.source ∧
    cexDateMeta.extractionConfidence = cexDateBody.extractionConfidence ∧
    (mergeContacts cexDateMeta cexDateBody).firstSeenDate =
      some "2025-01-01T00:00:00.000Z" ∧
    (mergeContacts cexDateBody cexDateMeta).firstSeenDate =
      some "2025-01-01T00:00:00Z" := by
  decide

/-! ## Confidence bounds (C2) -/

theorem applyWhitelistBlacklist_confidence_cases (R : RegexSemantics)
    (email : Option Email) (d : DetectionResult) (rules : Option Rules) :
    (applyWhitelistBlacklist R email d rules).confidence = d.confidence ∨
    (applyWhitelistBlacklist R email d rules).confidence = 100 ∨
    (applyWhitelistBlacklist R email d rules).confidence =
      max d.confidence 75 := by
  unfold applyWhitelistBlacklist
  repeat' split
  all_goals try simp
  all_goals repeat' split
  all_goals simp

theorem applyWhitelistBlacklist_confidence_le (R : RegexSemantics)
    (email : Option Email) (d : DetectionResult) (rules : Option Rules)
    (h : d.confidence ≤ 100) :
    (applyWhitelistBlacklist R email d rules).confidence ≤ 100 := by
  rcases applyWhitelistBlacklist_confidence_cases R email d rules with
    hc | hc | hc <;> rw [hc] <;> omega

/-- C2: for every message, threshold and rule set, the detector's confidence
is a natural number (hence ≥ 0) clamped to at most 100, both as produced by
`detectNewsletter` and after `applyWhitelistBlacklist` rewrites it (blacklist
sets it to 100, custom patterns to `max(existing, 75)`, whitelist leaves it
unchanged). -/
theorem detection_confidence_in_range (R : RegexSemantics)
    (email : Option Email) (threshold : Nat) (rules : Option Rules) :
    (detectNewsletter R email threshold).confidence ≤ 100 ∧
    (applyWhitelistBlacklist R email (detectNewsletter R email threshold)
      rules).confidence ≤ 100 := by
  have h1 : (detectNewsletter R email threshold).confidence ≤ 100 := by
    unfold detectNewsletter
    split
    · simp [failsafeResult]
    · split
      · simp [failsafeResult]
      · exact Nat.min_le_right _ _
  exact ⟨h1, applyWhitelistBlacklist_confidence_le R email _ rules h1⟩

/-! ## Fail-safe on malformed input (C5) -/

/-- C5: a `null` message, or one whose identifier is missing, short-circuits
`detectNewsletter` to exactly the fixed fail-safe result
`{isNewsletter: false, confidence: 0, signals: ["detection-error"]}` for any
threshold and any regex semantics (the embedding is a total function, so no
exception can escape). -/
theorem detectNewsletter_failsafe_on_malformed (R : RegexSemantics)
    (email : Option Email) (threshold : Nat)
    (h : email = none ∨ ∃ e : Email, email = some e ∧ e.id = "") :
    detectNewsletter R email threshold =
      ⟨false, 0, ["detection-error"], "detection-error"⟩ := by
  rcases h with rfl | ⟨e, rfl, hid⟩
  · rfl
  · unfold detectNewsletter
    simp [hid, failsafeResult]

/-- C5 witness: the fail-safe result at the concrete inputs `null` and an
identifier-less message, with the default threshold 60. -/
theorem detectNewsletter_failsafe_witness :
    detectNewsletter noRegex none 60 =
      ⟨false, 0, ["detection-error"], "detection-error"⟩ ∧
    detectNewsletter noRegex
      (some ⟨"", none, none, none, none, none, none, none, none⟩) 60 =
      ⟨false, 0, ["detection-error"], "detection-error"⟩ :=
  ⟨detectNewsletter_failsafe_on_malformed noRegex none 60 (Or.inl rfl),
   detectNewsletter_failsafe_on_malformed noRegex
     (some ⟨"", none, none, none, none, none, none, none, none⟩) 60
     (Or.inr ⟨_, rfl, rfl⟩)⟩

/-! ## Blacklist forcing (C3) -/

/-- C3 counterexample: with the domain `x.com` on both the whitelist and the
blacklist, the whitelist is checked first and returns, so the blacklisted
sender `a@x.com` produces `isNewsletter = false` with the raw confidence —
the claim's unconditional "blacklisted ⇒ isNewsletter ∧ confidence = 100"
fails. -/
theorem blacklist_overridden_by_whitelist :
    (((cexRulesBoth.blacklist.getD ⟨none, none⟩).domains.getD []).map
        jsLower).contains (senderDomainOf (jsLower "a@x.com")) = true ∧
    senderAddress (some cexEmailFromX) = some "a@x.com" ∧
    ¬ ((applyWhitelistBlacklist noRegex (some cexEmailFromX) cexDetection
          (some cexRulesBoth)).isNewsletter = true ∧
       (applyWhitelistBlacklist noRegex (some cexEmailFromX) cexDetection
          (some cexRulesBoth)).confidence = 100) := by
  decide

/-- C3 (amended): if the sender's lowercased domain or exact lowercased
address is on the blacklist and *neither is on the whitelist* (whitelist
precedence is the one exception the source imposes), then
`applyWhitelistBlacklist` forces `isNewsletter = true` and
`confidence = 100`, regardless of the raw classifier result `d`. -/
theorem blacklist_forces_newsletter_without_whitelist (R : RegexSemantics)
    (email : Option Email) (d : DetectionResult) (r : Rules) (addr : String)
    (haddr : senderAddress email = some addr) (hne : addr ≠ "")
    (bl : RuleList) (hbl : r.blacklist = some bl)
    (hhit : ((bl.domains.getD []).map jsLower).contains
              (senderDomainOf (jsLower addr)) = true ∨
            ((bl.senders.getD []).map jsLower).contains (jsLower addr) = true)
    (hwl : ∀ wl : RuleList, r.whitelist = some wl →
            ((wl.domains.getD []).map jsLower).contains
              (senderDomainOf (jsLower addr)) = false ∧
            ((wl.senders.getD []).map jsLower).contains (jsLower addr) = false) :
    (applyWhitelistBlacklist R email d (some r)).isNewsletter = true ∧
    (applyWhitelistBlacklist R email d (some r)).confidence = 100 := by
  have hwlHit :
      (match r.whitelist with
       | none => false
       | some wl =>
         ((wl.domains.getD []).map jsLower).contains
           (senderDomainOf (jsLower addr)) ||
         ((wl.senders.getD []).map jsLower).contains (jsLower addr)) = false := by
    cases hw : r.whitelist with
    | none => rfl
    | some wl =>
      have h2 := hwl wl hw
      dsimp only
      rw [h2.1, h2.2]
      rfl
  have hblHit :
      (match r.blacklist with
       | none => false
       | some blx =>
         ((blx.domains.getD []).map jsLower).contains
           (senderDomainOf (jsLower addr)) ||
         ((blx.senders.getD []).map jsLower).contains (jsLower addr)) = true := by
    rw [hbl]
    dsimp only
    rcases hhit with h | h
    · rw [h, Bool.true_or]
    · rw [h, Bool.or_true]
  unfold applyWhitelistBlacklist
  rw [haddr]
  simp only [if_neg hne, hwlHit, hblHit, Bool.false_eq_true, if_false, if_true]
  constructor <;> trivial

/-- C3 witness: blacklist-only rules for `x.com` force the concrete
low-confidence detection for `a@x.com` to `isNewsletter = true`,
`confidence = 100`. -/
theorem blacklist_forces_newsletter_witness :
    (applyWhitelistBlacklist noRegex (some cexEmailFromX) cexDetection
      (some witRulesBlacklist)).isNewsletter = true ∧
    (applyWhitelistBlacklist noRegex (some cexEmailFromX) cexDetection
      (some witRulesBlacklist)).confidence = 100 :=
  blacklist_forces_newsletter_without_whitelist noRegex (some cexEmailFromX)
    cexDetection witRulesBlacklist "a@x.com" (by decide) (by decide)
    ⟨some ["x.com"], none⟩ rfl (Or.inl (by decide))
    (fun _ h => Option.noConfusion h)

/-! ## Deduplication invariants (C4, C10) -/

theorem mergeContacts_email (c1 c2 : Contact) :
    (mergeContacts c1 c2).email = c1.email := rfl

theorem dedupStep_good (m : List (String × Contact)) (c : Contact)
    (h1 : ∀ kv ∈ m, kv.2.email ≠ "" ∧ canonEmail kv.2.email = kv.1)
    (h2 : (m.map Prod.fst).Nodup) :
    (∀ kv ∈ dedupStep m c, kv.2.email ≠ "" ∧ canonEmail kv.2.email = kv.1) ∧
    ((dedupStep m c).map Prod.fst).Nodup := by
  unfold dedupStep
  by_cases hc : c.email = ""
  · rw [if_pos hc]
    exact ⟨h1, h2⟩
  · rw [if_neg hc]
    dsimp only
    by_cases hk : m.any (fun kv => kv.1 = canonEmail c.email) = true
    · rw [if_pos hk]
      constructor
      · intro kv hkv
        rcases List.mem_map.mp hkv with ⟨kv', hkv', rfl⟩
        by_cases he : kv'.1 = canonEmail c.email
        · rw [if_pos he]
          constructor
          · show (mergeContacts kv'.2 c).email ≠ ""
            rw [mergeContacts_email]
            exact (h1 kv' hkv').1
          · show canonEmail (mergeContacts kv'.2 c).email = kv'.1
            rw [mergeContacts_email]
            exact (h1 kv' hkv').2
        · rw [if_neg he]
          exact h1 kv' hkv'
      · have hfst :
            (m.map (fun kv =>
              if kv.1 = canonEmail c.email then (kv.1, mergeContacts kv.2 c)
              else kv)).map Prod.fst = m.map Prod.fst := by
          rw [List.map_map]
          apply List.map_congr_left
          intro kv _
          dsimp only [Function.comp_apply]
          by_cases he : kv.1 = canonEmail c.email
          · rw [if_pos he]
          · rw [if_neg he]
        rw [hfst]
        exact h2
    · rw [if_neg hk]
      constructor
      · intro kv hkv
        rcases List.mem_append.mp hkv with h | h
        · exact h1 kv h
        · rw [List.mem_singleton] at h
          subst h
          exact ⟨hc, rfl⟩
      · rw [List.map_append]
        refine h2.append (List.nodup_singleton _) ?_
        intro k hk1 hk2
        simp only [List.map_cons, List.map_nil, List.mem_singleton] at hk2
        subst hk2
        rcases List.mem_map.mp hk1 with ⟨kv, hkv, hkey⟩
        exact hk (List.any_eq_true.mpr ⟨kv, hkv, by simp [hkey]⟩)

theorem foldl_dedupStep_good (cs : List Contact) (m : List (String × Contact))
    (h1 : ∀ kv ∈ m, kv.2.email ≠ "" ∧ canonEmail kv.2.email = kv.1)
    (h2 : (m.map Prod.fst).Nodup) :
    (∀ kv ∈ cs.foldl dedupStep m,
      kv.2.email ≠ "" ∧ canonEmail kv.2.email = kv.1) ∧
    ((cs.foldl dedupStep m).map Prod.fst).Nodup := by
  induction cs generalizing m with
  | nil => exact ⟨h1, h2⟩
  | cons c t ih =>
    have hg := dedupStep_good m c h1 h2
    exact ih (dedupStep m c) hg.1 hg.2

theorem foldl_dedupStep_fresh (rs : List Contact) :
    ∀ (m : List (String × Contact)),
    (∀ r ∈ rs, r.email ≠ "") →
    (∀ r ∈ rs, ∀ kv ∈ m, kv.1 ≠ canonEmail r.email) →
    (rs.map (fun r => canonEmail r.email)).Nodup →
    rs.foldl dedupStep m = m ++ rs.map (fun r => (canonEmail r.email, r)) := by
  induction rs with
  | nil => intro m _ _ _; simp
  | cons r t ih =>
    intro m h1 h2 h3
    have h3' : canonEmail r.email ∉ t.map (fun r => canonEmail r.email) ∧
        (t.map (fun r => canonEmail r.email)).Nodup := List.nodup_cons.mp h3
    have hr : r.email ≠ "" := h1 r (by simp)
    have hnotin : ¬ (m.any (fun kv => kv.1 = canonEmail r.email) = true) := by
      intro hany
      rcases List.any_eq_true.mp hany with ⟨kv, hkv, hkey⟩
      exact (h2 r (by simp) kv hkv) (by simpa using hkey)
    have hstep : dedupStep m r = m ++ [(canonEmail r.email, r)] := by
      unfold dedupStep
      rw [if_neg hr]
      dsimp only
      rw [if_neg hnotin]
    have hnew : ∀ r' ∈ t, ∀ kv ∈ m ++ [(canonEmail r.email, r)],
        kv.1 ≠ canonEmail r'.email := by
      intro r' hr' kv hkv
      rcases List.mem_append.mp hkv with h | h
      · exact h2 r' (List.mem_cons_of_mem r hr') kv h
      · rw [List.mem_singleton] at h
        subst h
        intro heq
        apply h3'.1
        rw [show canonEmail r.email = canonEmail r'.email from heq]
        exact List.mem_map_of_mem (fun r => canonEmail r.email) hr'
    rw [List.foldl_cons, hstep,
      ih (m ++ [(canonEmail r.email, r)])
        (fun r' hr' => h1 r' (List.mem_cons_of_mem r hr')) hnew h3'.2]
    simp

/-- C10 (implicit behaviour): `deduplicateContacts` silently drops every
input contact whose email is empty/absent — no such contact ever appears in
the deduplicated output — while `duplicatesRemoved` is computed as input
length minus output length, so dropped email-less contacts are counted as
"duplicates removed" even when they duplicated nothing (concrete conjunct:
a singleton email-less list reports `duplicatesRemoved = 1`). -/
theorem deduplicateContacts_drops_emailless :
    (∀ (X : List Contact) (c : Contact), c.email = "" →
      c ∉ (deduplicateContacts X).deduplicated) ∧
    (∀ X : List Contact, (deduplicateContacts X).duplicatesRemoved =
      X.length - (deduplicateContacts X).deduplicated.length) ∧
    deduplicateContacts [cexNoEmail] = ⟨[], 1⟩ := by
  refine ⟨?_, ?_, by decide⟩
  · intro X c hc hmem
    unfold deduplicateContacts at hmem
    by_cases hX : X.isEmpty
    · rw [if_pos hX] at hmem
      exact (List.not_mem_nil c) hmem
    · rw [if_neg hX] at hmem
      dsimp only at hmem
      rcases List.mem_map.mp hmem with ⟨kv, hkv, rfl⟩
      exact ((foldl_dedupStep_good X [] (by intro kv h; cases h)
        List.nodup_nil).1 kv hkv).1 hc
  · intro X
    unfold deduplicateContacts
    by_cases hX : X.isEmpty
    · rw [if_pos hX]
      rw [List.isEmpty_iff] at hX
      subst hX
      rfl
    · rw [if_neg hX]
      dsimp only
      rw [List.length_map]

/-- C10 witness: at the concrete inputs, the email-less contact is absent from
the output and counted by the length-difference formula. -/
theorem deduplicateContacts_drops_emailless_witness :
    cexNoEmail ∉ (deduplicateContacts [cexNoEmail, witCsvContact]).deduplicated ∧
    (deduplicateContacts [cexNoEmail, witCsvContact]).duplicatesRemoved =
      [cexNoEmail, witCsvContact].length -
        (deduplicateContacts [cexNoEmail, witCsvContact]).deduplicated.length :=
  ⟨deduplicateContacts_drops_emailless.1 [cexNoEmail, witCsvContact] cexNoEmail
     rfl,
   deduplicateContacts_drops_emailless.2.1 [cexNoEmail, witCsvContact]⟩

/-- C4: deduplication is idempotent — re-running `deduplicateContacts` on a
deduplicated output returns exactly the same records with
`duplicatesRemoved = 0`. -/
theorem deduplicateContacts_idempotent (X : List Contact) :
    deduplicateContacts (deduplicateContacts X).deduplicated =
      ⟨(deduplicateContacts X).deduplicated, 0⟩ := by
  by_cases hX : X.isEmpty
  · unfold deduplicateContacts
    rw [if_pos hX]
    rfl
  · have hgood := foldl_dedupStep_good X [] (by intro kv h; cases h)
      List.nodup_nil
    have hD : (deduplicateContacts X).deduplicated =
        (X.foldl dedupStep []).map Prod.snd := by
      unfold deduplicateContacts
      rw [if_neg hX]
    set m := X.foldl dedupStep [] with hm
    have hD1 : ∀ c ∈ m.map Prod.snd, c.email ≠ "" := by
      intro c hc
      rcases List.mem_map.mp hc with ⟨kv, hkv, rfl⟩
      exact (hgood.1 kv hkv).1
    have hD3 : ((m.map Prod.snd).map (fun r => canonEmail r.email)).Nodup := by
      rw [List.map_map]
      have : m.map (fun kv => canonEmail kv.2.email) = m.map Prod.fst :=
        List.map_congr_left (fun kv hkv => (hgood.1 kv hkv).2)
      rw [Function.comp_def]
      rw [show (fun kv : String × Contact => canonEmail kv.2.email) =
        (fun kv : String × Contact => canonEmail (Prod.snd kv).email) from rfl]
        at this
      rw [this]
      exact hgood.2
    rw [hD]
    by_cases hE : (m.map Prod.snd).isEmpty
    · rw [List.isEmpty_iff] at hE
      rw [hE]
      rfl
    · unfold deduplicateContacts
      rw [if_neg hE]
      rw [foldl_dedupStep_fresh (m.map Prod.snd) [] hD1
        (by intro r _ kv hkv; cases hkv) hD3]
      rw [List.nil_append, List.map_map]
      simp only [DedupResult.mk.injEq]
      constructor
      · rw [List.map_map]
        exact List.map_congr_left (fun kv _ => rfl)
      · rw [List.length_map, List.length_map]
        omega

/-! ## CSV line structure (C7) -/

theorem splitChar_of_not_mem (c : Char) (l : List Char) (h : c ∉ l) :
    splitChar c l = [l] := by
  induction l with
  | nil => rfl
  | cons d rest ih =>
    have hd : d ≠ c := fun hdc => h (hdc ▸ List.mem_cons_self d rest)
    have hrest : c ∉ rest := fun hr => h (List.mem_cons_of_mem d hr)
    unfold splitChar
    rw [if_neg hd, ih hrest]

theorem splitChar_append_cons (c : Char) (p l : List Char) (h : c ∉ p) :
    splitChar c (p ++ c :: l) = p :: splitChar c l := by
  induction p with
  | nil =>
    show splitChar c (c :: l) = [] :: splitChar c l
    simp [splitChar]
  | cons d rest ih =>
    have hd : d ≠ c := fun hdc => h (hdc ▸ List.mem_cons_self d rest)
    have hrest : c ∉ rest := fun hr => h (List.mem_cons_of_mem d hr)
    show splitChar c (d :: (rest ++ c :: l)) = (d :: rest) :: splitChar c l
    simp only [splitChar]
    rw [if_neg hd, ih hrest]

theorem splitChar_jsJoin (pieces : List String)
    (h : ∀ p ∈ pieces, '\n' ∉ p.data) (hne : pieces ≠ []) :
    splitChar '\n' (jsJoin "\n" pieces).data = pieces.map String.data := by
  induction pieces with
  | nil => exact absurd rfl hne
  | cons x rest ih =>
    cases rest with
    | nil =>
      show splitChar '\n' x.data = [x.data]
      exact splitChar_of_not_mem '\n' x.data (h x (by simp))
    | cons y t =>
      have hdata : (jsJoin "\n" (x :: y :: t)).data =
          x.data ++ '\n' :: (jsJoin "\n" (y :: t)).data := by
        show (x ++ "\n" ++ jsJoin "\n" (y :: t)).data = _
        rw [show (x ++ "\n" ++ jsJoin "\n" (y :: t)).data =
          x.data ++ ('\n' :: []) ++ (jsJoin "\n" (y :: t)).data from rfl]
        rw [List.append_assoc]
        rfl
      rw [hdata, splitChar_append_cons '\n' x.data _ (h x (by simp)),
        ih (fun p hp => h p (List.mem_cons_of_mem x hp)) (by simp)]
      rfl

theorem mem_dqList (a : Char) (ha : a ≠ '"') (l : List Char) :
    a ∈ dqList l ↔ a ∈ l := by
  induction l with
  | nil => simp [dqList]
  | cons c rest ih =>
    unfold dqList
    by_cases hc : c = '"'
    · rw [if_pos hc]
      subst hc
      simp only [List.mem_cons, ih]
      tauto
    · rw [if_neg hc]
      simp only [List.mem_cons, ih]

theorem escapeCSVField_no_newline (v : Option String)
    (h : match v with
         | none => True
         | some s => '\n' ∉ s.data) :
    '\n' ∉ (escapeCSVField v).data := by
  cases v with
  | none => simp [escapeCSVField]
  | some s =>
    show '\n' ∉ (if s.data.contains ',' || s.data.contains '"' ||
        s.data.contains '\n'
      then "\"" ++ (⟨dqList s.data⟩ : String) ++ "\"" else s).data
    by_cases hc : (s.data.contains ',' || s.data.contains '"' ||
        s.data.contains '\n') = true
    · rw [if_pos hc]
      rw [show ("\"" ++ (⟨dqList s.data⟩ : String) ++ "\"").data =
        '"' :: (dqList s.data ++ ['"']) from rfl]
      intro hmem
      rcases List.mem_cons.mp hmem with hq | hmem2
      · exact absurd hq.symm (by decide)
      · rcases List.mem_append.mp hmem2 with hd | hq
        · exact h ((mem_dqList '\n' (by decide) s.data).mp hd)
        · rw [List.mem_singleton] at hq
          exact absurd hq (by decide)
    · rw [if_neg hc]
      exact h

theorem jsJoin_no_newline (sep : String) (hsep : '\n' ∉ sep.data)
    (pieces : List String) (h : ∀ p ∈ pieces, '\n' ∉ p.data) :
    '\n' ∉ (jsJoin sep pieces).data := by
  induction pieces with
  | nil => simp [jsJoin]
  | cons x rest ih =>
    cases rest with
    | nil => exact h x (by simp)
    | cons y t =>
      show '\n' ∉ (x ++ sep ++ jsJoin sep (y :: t)).data
      rw [show (x ++ sep ++ jsJoin sep (y :: t)).data =
        x.data ++ sep.data ++ (jsJoin sep (y :: t)).data from rfl]
      intro hmem
      rcases List.mem_append.mp hmem with hm | hm
      · rcases List.mem_append.mp hm with hm2 | hm2
        · exact h x (by simp) hm2
        · exact hsep hm2
      · exact ih (fun p hp => h p (List.mem_cons_of_mem x hp)) hm

theorem arrayToCSVString_no_newline (arr : Option (List String))
    (h : match arr with
         | none => True
         | some l => ∀ p ∈ l, '\n' ∉ p.data) :
    '\n' ∉ (arrayToCSVString arr ";").data := by
  cases arr with
  | none => simp [arrayToCSVString]
  | some l =>
    show '\n' ∉ (if l.isEmpty then "" else jsJoin ";" l).data
    by_cases he : l.isEmpty = true
    · rw [if_pos he]
      simp
    · rw [if_neg he]
      exact jsJoin_no_newline ";" (by decide) l h

theorem noNL_iff (s : String) : noNL s = true ↔ '\n' ∉ s.data := by
  unfold noNL
  rw [Bool.not_eq_true']
  constructor
  · intro h hmem
    have helem : s.data.elem '\n' = true := List.elem_iff.mpr hmem
    rw [show s.data.contains '\n' = s.data.elem '\n' from rfl, helem] at h
    cases h
  · intro h
    rw [← Bool.not_eq_true]
    intro hc
    exact h (List.elem_iff.mp hc)

theorem csvRow_no_newline (c : Contact) (h : contactNoNewline c = true) :
    '\n' ∉ (csvRow c).data := by
  unfold contactNoNewline at h
  simp only [Bool.and_eq_true] at h
  obtain ⟨⟨⟨⟨⟨⟨⟨⟨⟨⟨h1, h2⟩, h3⟩, h4⟩, h5⟩, h6⟩, h7⟩, h8⟩, h9⟩, h10⟩, h11⟩ := h
  have hopt : ∀ v : Option String, noNLo v = true →
      (match v with
       | none => True
       | some s => '\n' ∉ s.data) := by
    intro v hv
    cases v with
    | none => trivial
    | some s => exact (noNL_iff s).mp hv
  have hlist : ∀ v : Option (List String), noNLl v = true →
      (match v with
       | none => True
       | some l => ∀ p ∈ l, '\n' ∉ p.data) := by
    intro v hv
    cases v with
    | none => trivial
    | some l =>
      intro p hp
      exact (noNL_iff p).mp (List.all_eq_true.mp hv p hp)
  have hbool : ∀ v : Option Bool, '\n' ∉ (escapeBoolField v).data := by
    intro v
    cases v with
    | none => simp [escapeBoolField, escapeCSVField]
    | some b =>
      cases b <;> simp [escapeBoolField, escapeCSVField, Option.map]
  apply jsJoin_no_newline "," (by decide)
  intro p hp
  simp only [List.mem_cons, List.mem_singleton] at hp
  rcases hp with rfl | rfl | rfl | rfl | rfl | rfl | rfl | rfl | rfl | rfl |
    rfl | rfl | h'
  · exact escapeCSVField_no_newline _ ((noNL_iff c.email).mp h1)
  · exact escapeCSVField_no_newline _ (hopt _ h2)
  · exact escapeCSVField_no_newline _ (hopt _ h3)
  · exact escapeCSVField_no_newline _ (hopt _ h4)
  · exact escapeCSVField_no_newline _
      (arrayToCSVString_no_newline _ (hlist _ h5))
  · exact escapeCSVField_no_newline _
      (arrayToCSVString_no_newline _ (hlist _ h6))
  · exact escapeCSVField_no_newline _ (hopt _ h7)
  · exact escapeCSVField_no_newline _ (hopt _ h8)
  · exact escapeCSVField_no_newline _ (hopt _ h9)
  · exact hbool _
  · exact escapeCSVField_no_newline _ (hopt _ h10)
  · exact escapeCSVField_no_newline _ (hopt _ h11)
  · cases h'

set_option maxRecDepth 8000 in
/-- C7 counterexample: the claim fails on the empty list — `generateCSV([])`
is the empty string, whose single line is not the fixed header — and on any
contact with an embedded newline, where the quoted field preserves the
newline and the output has an extra line (`3` instead of `len + 1 = 2`). -/
theorem generateCSV_claim_counterexample :
    (generateCSV [] = "" ∧ firstLine (generateCSV []) ≠ csvHeaderLine) ∧
    lineCount (generateCSV
      [⟨"a@x.com", some "two\nlines", none, none, none, none, none, none,
        none, none, none, none⟩]) = 3 := by
  decide

/-- C7 (amended): for every *non-empty* contact list all of whose rendered
field values are newline-free, `generateCSV` yields exactly
`len(contacts) + 1` lines whose first line is the fixed 12-column header.
(The empty list yields `""` with no header line, and a newline inside a
quoted field adds extra lines — see the counterexample.) -/
theorem generateCSV_line_structure (contacts : List Contact)
    (hne : contacts ≠ [])
    (h : ∀ c ∈ contacts, contactNoNewline c = true) :
    lineCount (generateCSV contacts) = contacts.length + 1 ∧
    firstLine (generateCSV contacts) =
      "email,displayName,firstName,lastName,phoneNumbers,linkedInUrls,companyName,jobTitle,source,isInOutlook,firstSeenDate,extractionConfidence" := by
  have hpieces : ∀ p ∈ csvHeaderLine :: contacts.map csvRow, '\n' ∉ p.data := by
    intro p hp
    rcases List.mem_cons.mp hp with rfl | hp2
    · decide
    · rcases List.mem_map.mp hp2 with ⟨c, hc, rfl⟩
      exact csvRow_no_newline c (h c hc)
  have hE : ¬ contacts.isEmpty = true := by
    cases contacts
    · exact absurd rfl hne
    · simp
  have hsplit : splitChar '\n' (generateCSV contacts).data =
      (csvHeaderLine :: contacts.map csvRow).map String.data := by
    unfold generateCSV
    rw [if_neg hE]
    exact splitChar_jsJoin _ hpieces (by simp)
  constructor
  · unfold lineCount csvLines jsSplitChar
    rw [hsplit]
    simp
  · unfold firstLine csvLines jsSplitChar
    rw [hsplit]
    simp only [List.map_cons, List.headD_cons]
    decide

/-- C7 witness: a concrete two-contact list yields three lines with the fixed
header first. -/
theorem generateCSV_line_structure_witness :
    lineCount (generateCSV [witCsvContact, cexMergeA]) = 3 ∧
    firstLine (generateCSV [witCsvContact, cexMergeA]) =
      "email,displayName,firstName,lastName,phoneNumbers,linkedInUrls,companyName,jobTitle,source,isInOutlook,firstSeenDate,extractionConfidence" :=
  generateCSV_line_structure [witCsvContact, cexMergeA] (by decide)
    (by decide)

/-! ## Display-name parsing (C9) -/

theorem head?_dropWhile_isWS (l : List Char) :
    ∀ c, (l.dropWhile isWS).head? = some c → isWS c = false := by
  induction l with
  | nil => intro c h; cases h
  | cons d rest ih =>
    intro c h
    by_cases hd : isWS d = true
    · rw [List.dropWhile_cons_of_pos hd] at h
      exact ih c h
    · rw [List.dropWhile_cons_of_neg hd] at h
      rw [List.head?_cons, Option.some.injEq] at h
      subst h
      exact Bool.not_eq_true _ ▸ hd

theorem getLast?_dropWhile (p : Char → Bool) (l : List Char) :
    ∀ c, (l.dropWhile p).getLast? = some c → l.getLast? = some c := by
  induction l with
  | nil => intro c h; cases h
  | cons d rest ih =>
    intro c h
    by_cases hd : p d = true
    · rw [List.dropWhile_cons_of_pos hd] at h
      have hr := ih c h
      cases rest with
      | nil => cases hr
      | cons e t => rw [List.getLast?_cons_cons]; exact hr
    · rw [List.dropWhile_cons_of_neg hd] at h
      exact h

theorem trim_head_not_ws (l : List Char) :
    ∀ c, (trimList l).head? = some c → isWS c = false := by
  intro c h
  unfold trimList at h
  rw [List.head?_reverse] at h
  have h2 := getLast?_dropWhile isWS ((l.dropWhile isWS).reverse) c h
  rw [List.getLast?_reverse] at h2
  exact head?_dropWhile_isWS l c h2

theorem trim_getLast_not_ws (l : List Char) :
    ∀ c, (trimList l).getLast? = some c → isWS c = false := by
  intro c h
  unfold trimList at h
  rw [List.getLast?_reverse] at h
  exact head?_dropWhile_isWS ((l.dropWhile isWS).reverse) c h

theorem splitWS_ne_nil (l : List Char) : splitWS l ≠ [] := by
  induction l with
  | nil => simp [splitWS]
  | cons c rest ih =>
    simp only [splitWS]
    by_cases hc : isWS c = true
    · simp only [hc, if_true]
      cases rest with
      | nil => simp
      | cons d t =>
        by_cases hd : isWS d = true
        · simpa [hd] using ih
        · simp [hd]
    · simp only [Bool.not_eq_true] at hc
      simp only [hc, Bool.false_eq_true, if_false]
      split <;> simp

theorem splitWS_sound (l : List Char)
    (hlast : ∀ c, l.getLast? = some c → isWS c = false) :
    (∀ p ∈ (splitWS l).tail, p ≠ []) ∧
    (l ≠ [] → (∀ c, l.head? = some c → isWS c = false) →
      ∀ p ∈ splitWS l, p ≠ []) := by
  induction l with
  | nil =>
    constructor
    · intro p hp
      simp [splitWS] at hp
    · intro h
      exact absurd rfl h
  | cons c rest ih =>
    by_cases hc : isWS c = true
    · -- head character is whitespace
      cases rest with
      | nil =>
        exact absurd (hlast c rfl) (by simp [hc])
      | cons d t =>
        have hlast' : ∀ c', (d :: t).getLast? = some c' → isWS c' = false := by
          intro c' h'
          exact hlast c' (by rw [List.getLast?_cons_cons]; exact h')
        have ihr := ih hlast'
        have hhead : (∀ c', (c :: d :: t).head? = some c' → isWS c' = false) →
            False := by
          intro hh
          exact absurd (hh c rfl) (by simp [hc])
        by_cases hd : isWS d = true
        · have hsp : splitWS (c :: d :: t) = splitWS (d :: t) := by
            simp [splitWS, hc, hd]
          rw [hsp]
          constructor
          · exact ihr.1
          · intro _ hh
            exact absurd (hh c rfl) (by simp [hc])
        · have hsp : splitWS (c :: d :: t) = [] :: splitWS (d :: t) := by
            simp [splitWS, hc, hd]
          rw [hsp]
          constructor
          · intro p hp
            exact ihr.2 (by simp) (by
              intro c' h'
              rw [List.head?_cons, Option.some.injEq] at h'
              subst h'
              exact Bool.not_eq_true _ ▸ hd) p hp
          · intro _ hh
            exact absurd (hh c rfl) (by simp [hc])
    · -- head character is not whitespace
      obtain ⟨p, ps, hr⟩ : ∃ p ps, splitWS rest = p :: ps := by
        cases hsp : splitWS rest with
        | nil => exact absurd hsp (splitWS_ne_nil rest)
        | cons p ps => exact ⟨p, ps, rfl⟩
      have hsp : splitWS (c :: rest) = (c :: p) :: ps := by
        simp [splitWS, hc, hr]
      rw [hsp]
      have hps : ∀ q ∈ ps, q ≠ [] := by
        cases rest with
        | nil =>
          simp only [splitWS] at hr
          intro q hq
          rw [((List.cons.injEq _ _ _ _).mp hr.symm).2] at hq
          cases hq
        | cons d t =>
          have hlast' : ∀ c', (d :: t).getLast? = some c' → isWS c' = false := by
            intro c' h'
            exact hlast c' (by rw [List.getLast?_cons_cons]; exact h')
          have := (ih hlast').1
          rw [hr] at this
          exact this
      constructor
      · exact hps
      · intro _ _ q hq
        rcases List.mem_cons.mp hq with rfl | hq2
        · simp
        · exact hps q hq2

/-- C9 counterexample: the whitespace-only display name `" "` has zero
whitespace tokens, yet `parseDisplayName` returns `firstName = ""` (the JS
`"".split(/\s+/) = [""]` artefact), not the claimed
`{firstName: null, lastName: null}`. -/
theorem parseDisplayName_whitespace_only_not_null :
    ((splitWS (jsTrim " ").data).filter (fun p => ! p.isEmpty)).length = 0 ∧
    parseDisplayName (some " ") = ⟨some "", none⟩ ∧
    parseDisplayName (some " ") ≠ ⟨none, none⟩ := by
  decide

/-- C9 (amended): `parseDisplayName` satisfies the display-name contract with
the whitespace-only case corrected — absent/empty input yields two nulls; a
non-empty input that trims to empty yields `{firstName: "", lastName: null}`;
otherwise one whitespace token yields `{token, null}` and two or more yield
`{first token, remaining tokens joined by a single space}` — stated as
pointwise equality with the spec-modelled `specParseDisplayName`. -/
theorem parseDisplayName_meets_amended_contract (displayName : Option String) :
    parseDisplayName displayName = specParseDisplayName displayName := by
  cases displayName with
  | none => rfl
  | some s =>
    simp only [parseDisplayName, specParseDisplayName]
    by_cases hs : s = ""
    · rw [if_pos hs, if_pos hs]
    · rw [if_neg hs, if_neg hs]
      by_cases ht : jsTrim s = ""
      · rw [if_pos ht, ht]
        rfl
      · rw [if_neg ht]
        have hne : (jsTrim s).data ≠ [] := by
          intro h
          exact ht (show jsTrim s = "" from congrArg String.mk h)
        have hnonempty : ∀ p ∈ splitWS (jsTrim s).data, p ≠ [] :=
          (splitWS_sound (jsTrim s).data (trim_getLast_not_ws s.data)).2 hne
            (trim_head_not_ws s.data)
        have hfilter : (splitWS (jsTrim s).data).filter
            (fun p => ! p.isEmpty) = splitWS (jsTrim s).data := by
          apply List.filter_eq_self.mpr
          intro p hp
          rw [Bool.not_eq_true']
          rw [← Bool.not_eq_true]
          intro hemp
          exact hnonempty p hp (List.isEmpty_iff.mp hemp)
        rw [hfilter]
        cases hsp : splitWS (jsTrim s).data with
        | nil => exact absurd hsp (splitWS_ne_nil _)
        | cons p ps =>
          cases ps with
          | nil => rfl
          | cons q qs => rfl

/-! ## Phone-number extraction (C6) -/

theorem filter_dropWhile_isWS (l : List Char) :
    (l.dropWhile isWS).filter (fun c => ! isSepClass c) =
      l.filter (fun c => ! isSepClass c) := by
  induction l with
  | nil => rfl
  | cons c rest ih =>
    by_cases hc : isWS c = true
    · rw [List.dropWhile_cons_of_pos hc, ih,
        List.filter_cons_of_neg (by simp [isSepClass, hc])]
    · rw [List.dropWhile_cons_of_neg hc]

theorem stripSeps_jsTrim (s : String) : stripSeps (jsTrim s) = stripSeps s := by
  show (⟨(trimList s.data).filter (fun c => ! isSepClass c)⟩ : String) =
    ⟨s.data.filter (fun c => ! isSepClass c)⟩
  unfold trimList
  rw [List.filter_reverse, filter_dropWhile_isWS, List.filter_reverse,
    List.reverse_reverse, filter_dropWhile_isWS]

theorem extractPhones_fold_eq (ms : List String) (acc : List String) :
    ms.foldl
      (fun numbers num =>
        let cleaned := stripSeps num
        if 10 ≤ cleaned.length then jsSetAdd numbers (jsTrim num) else numbers)
      acc =
    ((ms.filter (fun num => 10 ≤ (stripSeps num).length)).map jsTrim).foldl
      jsSetAdd acc := by
  induction ms generalizing acc with
  | nil => rfl
  | cons a t ih =>
    rw [List.foldl_cons]
    by_cases h10 : 10 ≤ (stripSeps a).length
    · rw [if_pos h10, List.filter_cons_of_pos (by simp [h10]), List.map_cons,
        List.foldl_cons, ih]
    · rw [if_neg h10, List.filter_cons_of_neg (by simp [h10]), ih]

/-- C6 counterexample: on the text `"+1 (234) 5678"` the international
pattern matches the whole candidate, whose separator-stripped form
`"+1(234)5678"` has 11 characters but only 8 digits — the code keeps it
(11 ≥ its 10-character threshold) although the claim's "at least 9 digits"
rule would drop it, so the kept-iff-≥9-digits claim is false. -/
theorem extractPhoneNumbers_keeps_eight_digit_candidate :
    extractPhoneNumbers "+1 (234) 5678" = ["+1 (234) 5678"] ∧
    digitCount "+1 (234) 5678" = 8 ∧
    (stripSeps "+1 (234) 5678").length = 11 := by
  decide

/-- C6 (amended): the phone extractor keeps a matched candidate if and only
if the candidate has at least 10 characters after stripping whitespace, dots
and hyphens (digits plus any `+` or parentheses — not 9, and characters, not
digits), trimmed, with exact-string duplicates removed in first-seen order —
stated as equality with the spec-modelled `specExtractPhoneNumbers`, plus the
claim's no-duplicates guarantee. -/
theorem extractPhoneNumbers_threshold_ten_chars (text : String) :
    extractPhoneNumbers text = specExtractPhoneNumbers text ∧
    (extractPhoneNumbers text).Nodup := by
  constructor
  · unfold extractPhoneNumbers specExtractPhoneNumbers
    by_cases htext : text = ""
    · rw [if_pos htext, if_pos htext]
    · rw [if_neg htext, if_neg htext]
      exact extractPhones_fold_eq (phoneMatches text) []
  · unfold extractPhoneNumbers
    by_cases htext : text = ""
    · rw [if_pos htext]
      exact List.nodup_nil
    · rw [if_neg htext, extractPhones_fold_eq]
      exact nodup_foldl_jsSetAdd _ [] List.nodup_nil

/-! ## Signature isolation (C8) -/

theorem if_lt_eq_max (a b : Int) : (if a < b then b else a) = max a b := by
  rcases lt_or_ge a b with h | h
  · rw [if_pos h, max_eq_right h.le]
  · rw [if_neg (not_lt.mpr h), max_eq_left h]

theorem lastMarkerIndex_eq_foldl_max (s : String) :
    lastMarkerIndex s = signatureMarkers.foldl
      (fun acc m => max acc (jsLastIndexOf s m)) (-1) := by
  unfold lastMarkerIndex
  have hfun : (fun (acc : Int) m =>
      let index := jsLastIndexOf s m
      if acc < index then index else acc) =
      (fun (acc : Int) m => max acc (jsLastIndexOf s m)) := by
    funext acc m
    exact if_lt_eq_max acc (jsLastIndexOf s m)
  rw [hfun]

theorem foldl_max_le_init (g : String → Int) (ms : List String) (a : Int) :
    a ≤ ms.foldl (fun acc m => max acc (g m)) a := by
  induction ms generalizing a with
  | nil => exact le_refl a
  | cons m t ih => exact le_trans (le_max_left a (g m)) (ih (max a (g m)))

theorem foldl_max_le_mem (g : String → Int) (ms : List String) (m : String)
    (hm : m ∈ ms) :
    ∀ a : Int, g m ≤ ms.foldl (fun acc m => max acc (g m)) a := by
  induction ms with
  | nil => cases hm
  | cons x t ih =>
    intro a
    rcases List.mem_cons.mp hm with rfl | hm2
    · exact le_trans (le_max_right a (g m)) (foldl_max_le_init g t _)
    · exact ih hm2 (max a (g x))

theorem foldl_max_cases (g : String → Int) (ms : List String) (a : Int) :
    ms.foldl (fun acc m => max acc (g m)) a = a ∨
    ∃ m ∈ ms, ms.foldl (fun acc m => max acc (g m)) a = g m := by
  induction ms generalizing a with
  | nil => exact Or.inl rfl
  | cons x t ih =>
    rw [List.foldl_cons]
    rcases ih (max a (g x)) with h | ⟨m, hm, h⟩
    · rcases le_total a (g x) with hax | hax
      · right
        exact ⟨x, by simp, by rw [h, max_eq_right hax]⟩
      · left
        rw [h, max_eq_left hax]
    · right
      exact ⟨m, List.mem_cons_of_mem x hm, h⟩

theorem foldl_max_all_neg (g : String → Int) (ms : List String)
    (h : ∀ m ∈ ms, g m = -1) :
    ms.foldl (fun acc m => max acc (g m)) (-1) = -1 := by
  rcases foldl_max_cases g ms (-1) with hc | ⟨m, hm, hc⟩
  · exact hc
  · rw [hc, h m hm]

theorem jsLastIndexOf_eq_neg_one (s pat : String)
    (h : ∀ i ∈ List.range (s.length + 1), matchAtB pat s i = false) :
    jsLastIndexOf s pat = -1 := by
  unfold jsLastIndexOf
  have : (List.range (s.length + 1)).filter (fun i => matchAtB pat s i) = [] :=
    List.filter_eq_nil_iff.mpr (fun i hi => by simp [h i hi])
  rw [this]
  rfl

theorem jsLastIndexOf_match_of_eq (s pat : String) (j : Nat)
    (h : jsLastIndexOf s pat = (j : Int)) :
    j ∈ List.range (s.length + 1) ∧ matchAtB pat s j = true := by
  unfold jsLastIndexOf at h
  cases hmax : ((List.range (s.length + 1)).filter
      (fun i => matchAtB pat s i)).max? with
  | none =>
    rw [hmax] at h
    exfalso
    have hcon : (-1 : Int) = (j : Int) := h
    omega
  | some k =>
    rw [hmax] at h
    have hkj : k = j := by
      have hcast : (k : Int) = (j : Int) := h
      exact_mod_cast hcast
    subst hkj
    have hk := (List.max?_eq_some_iff'.mp hmax).1
    rw [List.mem_filter] at hk
    exact ⟨hk.1, hk.2⟩

theorem le_jsLastIndexOf (s pat : String) (i : Nat)
    (hi : i ∈ List.range (s.length + 1)) (hm : matchAtB pat s i = true) :
    (i : Int) ≤ jsLastIndexOf s pat := by
  unfold jsLastIndexOf
  have hmem : i ∈ (List.range (s.length + 1)).filter
      (fun i => matchAtB pat s i) := List.mem_filter.mpr ⟨hi, by simp [hm]⟩
  cases hmax : ((List.range (s.length + 1)).filter
      (fun i => matchAtB pat s i)).max? with
  | none =>
    rw [List.max?_eq_none_iff] at hmax
    rw [hmax] at hmem
    cases hmem
  | some k =>
    show (i : Int) ≤ (k : Int)
    exact_mod_cast (List.max?_eq_some_iff'.mp hmax).2 i hmem

theorem mem_allMarkerPositions (s : String) (i : Nat) :
    i ∈ allMarkerPositions s ↔
      i ∈ List.range (s.length + 1) ∧
      ∃ m ∈ signatureMarkers, matchAtB m s i = true := by
  unfold allMarkerPositions
  rw [List.mem_filter, List.any_eq_true]

theorem lastMarkerIndex_spec (s : String) :
    lastMarkerIndex s =
      match (allMarkerPositions s).max? with
      | some j => (j : Int)
      | none => -1 := by
  rw [lastMarkerIndex_eq_foldl_max]
  cases hocc : (allMarkerPositions s).max? with
  | none =>
    rw [List.max?_eq_none_iff] at hocc
    apply foldl_max_all_neg
    intro m hm
    apply jsLastIndexOf_eq_neg_one
    intro i hi
    by_contra hmatch
    rw [Bool.not_eq_false] at hmatch
    have : i ∈ allMarkerPositions s :=
      (mem_allMarkerPositions s i).mpr ⟨hi, m, hm, hmatch⟩
    rw [hocc] at this
    cases this
  | some j =>
    show List.foldl (fun acc m => max acc (jsLastIndexOf s m)) (-1)
      signatureMarkers = (j : Int)
    have hj := List.max?_eq_some_iff'.mp hocc
    have hmem := (mem_allMarkerPositions s j).mp hj.1
    obtain ⟨hrange, m0, hm0, hmatch0⟩ := hmem
    apply le_antisymm
    · rcases foldl_max_cases (jsLastIndexOf s) signatureMarkers (-1) with
        hc | ⟨m, hm, hc⟩
      · rw [hc]
        omega
      · rw [hc]
        have hdisj : jsLastIndexOf s m = -1 ∨ 0 ≤ jsLastIndexOf s m := by
          unfold jsLastIndexOf
          cases ((List.range (s.length + 1)).filter
              (fun i => matchAtB m s i)).max? with
          | none => left; rfl
          | some v =>
            right
            show (0 : Int) ≤ (v : Int)
            omega
        rcases hdisj with h1 | h1
        · rw [h1]
          omega
        · obtain ⟨k, hv⟩ : ∃ k : Nat, jsLastIndexOf s m = (k : Int) :=
            ⟨(jsLastIndexOf s m).toNat, (Int.toNat_of_nonneg h1).symm⟩
          rw [hv]
          have hk := jsLastIndexOf_match_of_eq s m k hv
          have hkocc : k ∈ allMarkerPositions s :=
            (mem_allMarkerPositions s k).mpr ⟨hk.1, m, hm, hk.2⟩
          exact_mod_cast hj.2 k hkocc
    · exact le_trans (le_jsLastIndexOf s m0 j hrange hmatch0)
        (foldl_max_le_mem (jsLastIndexOf s) signatureMarkers m0 hm0 (-1))

/-- C8: `extractSignature` satisfies its three-branch contract — if any
marker phrase of the fixed bilingual list occurs in the body, it returns the
substring from the greatest occurrence position of any marker to the end of
the text, truncated to 500 characters exactly when longer; if no marker
occurs and the body has more than 3 lines it returns the last 4 lines
joined; otherwise it returns null — stated as pointwise equality with the
spec-modelled `extractSignatureSpec`. -/
theorem extractSignature_meets_contract (bodyText : String) :
    extractSignature bodyText = extractSignatureSpec bodyText := by
  unfold extractSignature extractSignatureSpec
  by_cases hb : bodyText = ""
  · subst hb
    rw [if_pos rfl]
    decide
  · rw [if_neg hb]
    have hspec := lastMarkerIndex_spec bodyText
    cases hocc : (allMarkerPositions bodyText).max? with
    | none =>
      rw [hocc] at hspec
      rw [if_pos hspec]
    | some j =>
      rw [hocc] at hspec
      rw [hspec]
      rw [if_neg (by omega : ¬ ((j : Int) = -1))]
      rw [show ((j : Int)).toNat = j from rfl]
      exact (apply_ite some _ _ _).symm

end O365
